import Mathlib

/-!
Verification of the Zathras post-processing core (document schema,
content hashing, summary/timeseries split, validation, export loop)
against its natural-language specification.

The Python sources are shallowly embedded:
* Python byte strings are `List Nat` (byte values), machine words are
  `Nat` reduced mod `2 ^ 32` where overflow matters;
* Python values flowing through the free-form `Dict[str, Any]` payloads
  are modelled by the inductive `PyVal`; a Python `float` is represented
  by its shortest round-trip decimal representation (its `repr`), which
  is exactly what `json.dumps` emits for it and which is injective on
  floats;
* fallible code returns `Except PyErr`.
-/

set_option maxRecDepth 1400

namespace Zathras

/-! ## SHA-256 (`hashlib.sha256(...).hexdigest()` in `schema.py`) -/

def w32 (n : Nat) : Nat := n % 4294967296

/-- Rotate a 32-bit word right by `n` bits. -/
def rotrW (n x : Nat) : Nat := w32 ((x >>> n) ||| (x <<< (32 - n)))

def bigSig0 (x : Nat) : Nat := rotrW 2 x ^^^ (rotrW 13 x ^^^ rotrW 22 x)
def bigSig1 (x : Nat) : Nat := rotrW 6 x ^^^ (rotrW 11 x ^^^ rotrW 25 x)
def smallSig0 (x : Nat) : Nat := rotrW 7 x ^^^ (rotrW 18 x ^^^ (x >>> 3))
def smallSig1 (x : Nat) : Nat := rotrW 17 x ^^^ (rotrW 19 x ^^^ (x >>> 10))
def chf (x y z : Nat) : Nat := (x &&& y) ^^^ ((x ^^^ 4294967295) &&& z)
def majf (x y z : Nat) : Nat := (x &&& y) ^^^ ((x &&& z) ^^^ (y &&& z))

/-- The 64 round constants of FIPS 180-2, in decimal. -/
def shaK : List Nat :=
  [1116352408, 1899447441, 3049323471, 3921009573, 961987163,
   1508970993, 2453635748, 2870763221, 3624381080, 310598401,
   607225278, 1426881987, 1925078388, 2162078206, 2614888103,
   3248222580, 3835390401, 4022224774, 264347078, 604807628,
   770255983, 1249150122, 1555081692, 1996064986, 2554220882,
   2821834349, 2952996808, 3210313671, 3336571891, 3584528711,
   113926993, 338241895, 666307205, 773529912, 1294757372,
   1396182291, 1695183700, 1986661051, 2177026350, 2456956037,
   2730485921, 2820302411, 3259730800, 3345764771, 3516065817,
   3600352804, 4094571909, 275423344, 430227734, 506948616,
   659060556, 883997877, 958139571, 1322822218, 1537002063,
   1747873779, 1955562222, 2024104815, 2227730452, 2361852424,
   2428436474, 2756734187, 3204031479, 3329325298]

/-- Working state of the compression function (eight 32-bit words). -/
structure Hash8 where
  h0 : Nat
  h1 : Nat
  h2 : Nat
  h3 : Nat
  h4 : Nat
  h5 : Nat
  h6 : Nat
  h7 : Nat

def initH : Hash8 :=
  ⟨1779033703, 3144134277, 1013904242, 2773480762,
   1359893119, 2600822924, 528734635, 1541459225⟩

/-- Extend 16 message words to 64; `acc` holds the words emitted so far,
newest first. -/
def msgSched : Nat → List Nat → List Nat
  | 0, acc => acc.reverse
  | fuel + 1, acc =>
      let nw := w32 (smallSig1 (acc.getD 1 0) + acc.getD 6 0 +
                     smallSig0 (acc.getD 14 0) + acc.getD 15 0)
      msgSched fuel (nw :: acc)

def shaRound (st : Hash8) (wi ki : Nat) : Hash8 :=
  let t1 := w32 (st.h7 + bigSig1 st.h4 + chf st.h4 st.h5 st.h6 + ki + wi)
  let t2 := w32 (bigSig0 st.h0 + majf st.h0 st.h1 st.h2)
  ⟨w32 (t1 + t2), st.h0, st.h1, st.h2, w32 (st.h3 + t1), st.h4, st.h5, st.h6⟩

def compressBlock (st : Hash8) (block : List Nat) : Hash8 :=
  let ws := msgSched 48 block.reverse
  let f := (ws.zip shaK).foldl (fun s p => shaRound s p.1 p.2) st
  ⟨w32 (st.h0 + f.h0), w32 (st.h1 + f.h1), w32 (st.h2 + f.h2),
   w32 (st.h3 + f.h3), w32 (st.h4 + f.h4), w32 (st.h5 + f.h5),
   w32 (st.h6 + f.h6), w32 (st.h7 + f.h7)⟩

/-- Big-endian packing of bytes into 32-bit words. -/
def toWords : List Nat → List Nat
  | a :: b :: c :: d :: rest => (((a * 256 + b) * 256 + c) * 256 + d) :: toWords rest
  | _ => []

/-- Split the padded word stream into 16-word blocks (padding guarantees
the word count is a multiple of 16). -/
def chunk16 : List Nat → List (List Nat)
  | w0 :: w1 :: w2 :: w3 :: w4 :: w5 :: w6 :: w7 ::
    w8 :: w9 :: w10 :: w11 :: w12 :: w13 :: w14 :: w15 :: rest =>
      [w0, w1, w2, w3, w4, w5, w6, w7, w8, w9, w10, w11, w12, w13, w14, w15] ::
        chunk16 rest
  | _ => []

/-- SHA-256 padding: append `0x80`, zero bytes to 56 mod 64, then the
bit length as 8 big-endian bytes. -/
def sha256pad (msg : List Nat) : List Nat :=
  let padLen := (64 + 55 - msg.length % 64) % 64
  let bl := msg.length * 8
  msg ++ 0x80 :: List.replicate padLen 0 ++
    [bl / 72057594037927936 % 256, bl / 281474976710656 % 256,
     bl / 1099511627776 % 256, bl / 4294967296 % 256,
     bl / 16777216 % 256, bl / 65536 % 256, bl / 256 % 256, bl % 256]

def hexDigits : List Char := "0123456789abcdef".data

def hexCharOf (n : Nat) : Char := hexDigits.getD n 'f'

def wordHex (w : Nat) : List Char :=
  [hexCharOf (w / 268435456 % 16), hexCharOf (w / 16777216 % 16),
   hexCharOf (w / 1048576 % 16), hexCharOf (w / 65536 % 16),
   hexCharOf (w / 4096 % 16), hexCharOf (w / 256 % 16),
   hexCharOf (w / 16 % 16), hexCharOf (w % 16)]

def shaFinal (msg : List Nat) : Hash8 :=
  (chunk16 (toWords (sha256pad msg))).foldl compressBlock initH

/-- `hashlib.sha256(bytes).hexdigest()`: lowercase hex digest of SHA-256. -/
def sha256hex (msg : List Nat) : String :=
  String.mk (wordHex (shaFinal msg).h0 ++ wordHex (shaFinal msg).h1 ++
             wordHex (shaFinal msg).h2 ++ wordHex (shaFinal msg).h3 ++
             wordHex (shaFinal msg).h4 ++ wordHex (shaFinal msg).h5 ++
             wordHex (shaFinal msg).h6 ++ wordHex (shaFinal msg).h7)

/-- `s.encode('utf-8')` for the ASCII strings produced by the canonical
serializer (`ensure_ascii` is the `json.dumps` default, so the canonical
JSON text is pure ASCII and UTF-8 encoding is the identity on code points). -/
def strBytes (s : String) : List Nat := s.data.map Char.toNat

/-- FIPS 180-2 test vector, checking the embedding of `hashlib.sha256`. -/
theorem sha256_abc_vector :
    sha256hex (strBytes "abc") =
      "ba7816bf8f01cfea414140de5dae2223b00361a396177a9cb410ff61f20015ad" := by
  rfl

theorem wordHex_length (w : Nat) : (wordHex w).length = 8 := rfl

theorem hexCharOf_mem (k : Nat) (hk : k < 16) : hexCharOf k ∈ hexDigits := by
  interval_cases k <;> decide

theorem wordHex_mem (w : Nat) : ∀ c ∈ wordHex w, c ∈ hexDigits := by
  intro c hc
  simp only [wordHex, List.mem_cons, List.not_mem_nil, or_false] at hc
  rcases hc with h | h | h | h | h | h | h | h <;> subst h <;>
    exact hexCharOf_mem _ (Nat.mod_lt _ (by norm_num))

theorem sha256hex_data (msg : List Nat) :
    (sha256hex msg).data =
      wordHex (shaFinal msg).h0 ++ wordHex (shaFinal msg).h1 ++
      wordHex (shaFinal msg).h2 ++ wordHex (shaFinal msg).h3 ++
      wordHex (shaFinal msg).h4 ++ wordHex (shaFinal msg).h5 ++
      wordHex (shaFinal msg).h6 ++ wordHex (shaFinal msg).h7 := rfl

theorem sha256hex_length (msg : List Nat) : (sha256hex msg).length = 64 := by
  show (sha256hex msg).data.length = 64
  rw [sha256hex_data]
  simp only [List.length_append, wordHex_length]

theorem sha256hex_lowercase_hex (msg : List Nat) :
    ∀ c ∈ (sha256hex msg).data, c ∈ hexDigits := by
  intro c hc
  rw [sha256hex_data] at hc
  simp only [List.mem_append] at hc
  rcases hc with ((((((h | h) | h) | h) | h) | h) | h) | h <;>
    exact wordHex_mem _ _ h

/-! ## Python values

The free-form payloads (`Dict[str, Any]`) and everything `to_dict`
produces are modelled by `PyVal`.  A Python `float` is represented by its
`repr` string (shortest round-trip decimal), which is injective on floats
and is the exact text `json.dumps` emits for the value. -/

inductive PyVal where
  | pnone
  | pbool (b : Bool)
  | pint (n : Int)
  | pfloat (r : String)
  | pstr (s : String)
  | plist (xs : List PyVal)
  | pdict (kvs : List (String × PyVal))


/-- `isinstance(v, (int, float))` — Python `bool` is a subclass of `int`,
so booleans count as numeric. -/
def PyVal.isNumericPy : PyVal → Bool
  | .pbool _ => true
  | .pint _ => true
  | .pfloat _ => true
  | _ => false

/-- Python `str(n)` for a natural number; `fuel` bounds the recursion and
any `fuel > n` is adequate. -/
def natDigitsRev : Nat → Nat → List Char
  | 0, _ => []
  | fuel + 1, n =>
      if n < 10 then [Char.ofNat (48 + n)]
      else Char.ofNat (48 + n % 10) :: natDigitsRev fuel (n / 10)

def pyNatStr (n : Nat) : String := String.mk (natDigitsRev (n + 1) n).reverse

/-- Python `str(n)` for an `int`. -/
def pyIntStr (n : Int) : String :=
  if n < 0 then "-" ++ pyNatStr n.natAbs else pyNatStr n.natAbs

/-! ## Canonical JSON serialization

`json.dumps(x, sort_keys=True, separators=(',', ':'))` is modelled as a
recursive key-sort normal form (`canon`) followed by plain emission
(`pySer`): sorting every object's keys during emission is extensionally
the same as emitting the recursively key-sorted value. -/

/-- Python string comparison: lexicographic on code points. -/
def charsLe : List Char → List Char → Bool
  | [], _ => true
  | _ :: _, [] => false
  | c :: cs, d :: ds =>
      if c.toNat < d.toNat then true
      else if d.toNat < c.toNat then false
      else charsLe cs ds

def strLe (a b : String) : Bool := charsLe a.data b.data

/-- Stable insertion by key (Python's `sorted` on dict items is a stable
sort; keys compare by code points). -/
def insertByKey (p : String × PyVal) : List (String × PyVal) → List (String × PyVal)
  | [] => [p]
  | q :: rest => if strLe p.1 q.1 then p :: q :: rest else q :: insertByKey p rest

def sortByKey (l : List (String × PyVal)) : List (String × PyVal) :=
  l.foldr insertByKey []

mutual

/-- Recursively sort all object keys (the `sort_keys=True` normal form). -/
def canon : PyVal → PyVal
  | .pdict kvs => .pdict (sortByKey (canonKVs kvs))
  | .plist xs => .plist (canonList xs)
  | v => v

def canonList : List PyVal → List PyVal
  | [] => []
  | v :: rest => canon v :: canonList rest

def canonKVs : List (String × PyVal) → List (String × PyVal)
  | [] => []
  | (k, v) :: rest => (k, canon v) :: canonKVs rest

end

/-- JSON escape of one character, after `json.dumps`'s default
(`ensure_ascii=True`) encoder: printable ASCII except `"` and `\` is
emitted raw, the usual short escapes apply, everything else becomes
`\uXXXX` (code points beyond FFFF are out of scope for this model). -/
def jsonEscapeChar (c : Char) : List Char :=
  if c = '"' then ['\\', '"']
  else if c = '\\' then ['\\', '\\']
  else if c = Char.ofNat 8 then ['\\', 'b']
  else if c = Char.ofNat 9 then ['\\', 't']
  else if c = Char.ofNat 10 then ['\\', 'n']
  else if c = Char.ofNat 12 then ['\\', 'f']
  else if c = Char.ofNat 13 then ['\\', 'r']
  else if c.toNat < 32 || 126 < c.toNat then
    '\\' :: 'u' :: [hexCharOf (c.toNat / 4096 % 16), hexCharOf (c.toNat / 256 % 16),
                    hexCharOf (c.toNat / 16 % 16), hexCharOf (c.toNat % 16)]
  else [c]

def jsonStrLit (s : String) : List Char :=
  '"' :: (s.data.map jsonEscapeChar).flatten ++ ['"']

def joinCommaSep : List (List Char) → List Char
  | [] => []
  | x :: rest => x ++ (rest.map (fun y => ',' :: y)).flatten

mutual

/-- Plain JSON emission with separators `(',', ':')`; to be applied to a
`canon` normal form to model `sort_keys=True`. -/
def pySer : PyVal → List Char
  | .pnone => "null".data
  | .pbool b => if b then "true".data else "false".data
  | .pint n => (pyIntStr n).data
  | .pfloat r => r.data
  | .pstr s => jsonStrLit s
  | .plist xs => Char.ofNat 91 :: joinCommaSep (pySerList xs) ++ [Char.ofNat 93]
  | .pdict kvs => Char.ofNat 123 :: joinCommaSep (pySerKVs kvs) ++ [Char.ofNat 125]

def pySerList : List PyVal → List (List Char)
  | [] => []
  | v :: rest => pySer v :: pySerList rest

def pySerKVs : List (String × PyVal) → List (List Char)
  | [] => []
  | (k, v) :: rest => (jsonStrLit k ++ ':' :: pySer v) :: pySerKVs rest

end

/-- `json.dumps(v, sort_keys=True, separators=(',', ':'))`. -/
def pyDumpsSorted (v : PyVal) : List Char := pySer (canon v)

theorem canon_small_check :
    pyDumpsSorted (.pdict [("b", .pint 1), ("a", .pdict [("z", .pnone), ("y", .pbool true)])]) =
      "\x7b\"a\":\x7b\"y\":true,\"z\":null\x7d,\"b\":1\x7d".data := by
  rfl

/-! ## Python string and dict primitives -/

/-- `s.split(sep)` for a one-character separator (the source only splits
on `'_'`): Python keeps empty parts, and `"".split('_') == ['']`. -/
def splitChar (sep : Char) : List Char → List (List Char)
  | [] => [[]]
  | c :: rest =>
      match splitChar sep rest with
      | [] => [[]]
      | g :: gs => if c = sep then [] :: g :: gs else (c :: g) :: gs

/-- `pat in hay` for Python strings (substring containment). -/
def containsSub (pat : List Char) : List Char → Bool
  | [] => pat.isEmpty
  | c :: t => pat.isPrefixOf (c :: t) || containsSub pat t

def strIn (pat hay : String) : Bool := containsSub pat.data hay.data

/-- Python whitespace accepted (and stripped) by `int(str)`. -/
def isPyWS (c : Char) : Bool :=
  c = ' ' || c = Char.ofNat 9 || c = Char.ofNat 10 || c = Char.ofNat 11 ||
    c = Char.ofNat 12 || c = Char.ofNat 13

def isPyDigit (c : Char) : Bool := 48 ≤ c.toNat && c.toNat ≤ 57

def digitsVal (cs : List Char) : Nat :=
  cs.foldl (fun a c => a * 10 + (c.toNat - 48)) 0

inductive PyErr where
  | attributeError
  | indexError
  | valueError
  deriving DecidableEq

/-- `int(s)` on an ASCII string with no underscore digit grouping (the
parsed text comes from `str.split('_')`, so it never contains `_`):
optional surrounding whitespace, optional sign, one or more digits;
anything else raises `ValueError`. -/
def pyIntParse (cs : List Char) : Except PyErr Int :=
  match ((cs.dropWhile isPyWS).reverse.dropWhile isPyWS).reverse with
  | [] => .error .valueError
  | c :: rest =>
      if c = '-' then
        (if rest ≠ [] && rest.all isPyDigit then .ok (-(digitsVal rest : Int))
         else .error .valueError)
      else if c = '+' then
        (if rest ≠ [] && rest.all isPyDigit then .ok (digitsVal rest : Int)
         else .error .valueError)
      else if (c :: rest).all isPyDigit then .ok (digitsVal (c :: rest) : Int)
      else .error .valueError

/-- `seq_key.split('_')[1]` followed by `int(...)` — the sequence-number
parsing inside `extract_timeseries_documents`. -/
def parseSeqIndex (k : String) : Except PyErr Int :=
  match splitChar '_' k.data with
  | _ :: c1 :: _ => pyIntParse c1
  | _ => .error .indexError

/-- Association-list operations for Python dicts.  The dicts built by
this code never hold duplicate keys, and insertion order is preserved. -/
def dictContains (kvs : List (String × PyVal)) (k : String) : Bool :=
  kvs.any (fun kv => kv.1 == k)

def dictGet (kvs : List (String × PyVal)) (k : String) : Option PyVal :=
  (kvs.find? (fun kv => kv.1 == k)).map (·.2)

/-- `d.get(k, dflt)`. -/
def dictGetD (kvs : List (String × PyVal)) (k : String) (dflt : PyVal) : PyVal :=
  (dictGet kvs k).getD dflt

/-- `d.pop(k, None)` / `del d[k]`: drop the (unique) entry with key `k`. -/
def popKey (k : String) (kvs : List (String × PyVal)) : List (String × PyVal) :=
  kvs.eraseP (fun kv => kv.1 == k)

/-- `d[k] = f(d[k])` on an existing key, keeping its position. -/
def mapValAt (kvs : List (String × PyVal)) (k : String) (f : PyVal → PyVal) :
    List (String × PyVal) :=
  kvs.map (fun kv => if kv.1 == k then (kv.1, f kv.2) else kv)

/-! ## The document schema (`schema.py` dataclasses and their `to_dict`s)

Helpers for the two filterings that occur: `asdict`-based `to_dict`s drop
fields that are `None`; hand-written `to_dict`s test truthiness (`if
self.x:`), under which empty strings and empty dicts are also dropped. -/

def optEntry (k : String) (v : Option PyVal) : List (String × PyVal) :=
  match v with
  | none => []
  | some x => [(k, x)]

def optStr (k : String) (v : Option String) : List (String × PyVal) :=
  optEntry k (v.map .pstr)

def optInt (k : String) (v : Option Int) : List (String × PyVal) :=
  optEntry k (v.map .pint)

/-- `s.startswith(pre)`. -/
def pyStartsWith (s pre : String) : Bool := pre.data.isPrefixOf s.data

/-- Truthiness of a string (`if self.document_id:` style checks). -/
def pyStrTruthy (s : String) : Bool := !s.data.isEmpty

/-- Truthiness of an optional string field (`if self.start_time:`). -/
def strTruthy : Option String → Bool
  | some s => pyStrTruthy s
  | none => false

/-- Truthiness of an optional dict-valued field (`if self.metrics:`). -/
def dictTruthy : Option (List (String × PyVal)) → Bool
  | some (_ :: _) => true
  | _ => false

structure Metadata where
  document_id : String
  document_type : String := "zathras_test_result"
  zathras_version : String := "1.0"
  test_timestamp : Option String := none
  processing_timestamp : String
  collection_timestamp : Option String := none
  os_vendor : Option String := none
  cloud_provider : Option String := none
  instance_type : Option String := none
  iteration : Option Int := none
  scenario_name : Option String := none

def Metadata.to_dict (m : Metadata) : List (String × PyVal) :=
  [("document_id", .pstr m.document_id),
   ("document_type", .pstr m.document_type),
   ("zathras_version", .pstr m.zathras_version)] ++
  optStr "test_timestamp" m.test_timestamp ++
  [("processing_timestamp", .pstr m.processing_timestamp)] ++
  optStr "collection_timestamp" m.collection_timestamp ++
  optStr "os_vendor" m.os_vendor ++
  optStr "cloud_provider" m.cloud_provider ++
  optStr "instance_type" m.instance_type ++
  optInt "iteration" m.iteration ++
  optStr "scenario_name" m.scenario_name

structure TestInfo where
  name : String
  version : String
  wrapper_version : Option String := none
  description : Option String := none
  url : Option String := none

def TestInfo.to_dict (t : TestInfo) : List (String × PyVal) :=
  [("name", .pstr t.name), ("version", .pstr t.version)] ++
  optStr "wrapper_version" t.wrapper_version ++
  optStr "description" t.description ++
  optStr "url" t.url

structure CPUInfo where
  vendor : Option String := none
  model : Option String := none
  architecture : Option String := none
  cores : Option Int := none
  threads_per_core : Option Int := none
  sockets : Option Int := none
  numa_nodes : Option Int := none
  frequency_mhz : Option PyVal := none
  cache_l1d : Option String := none
  cache_l1i : Option String := none
  cache_l2 : Option String := none
  cache_l3 : Option String := none
  flags : List (String × Bool) := []

def CPUInfo.to_dict (c : CPUInfo) : List (String × PyVal) :=
  optStr "vendor" c.vendor ++
  optStr "model" c.model ++
  optStr "architecture" c.architecture ++
  optInt "cores" c.cores ++
  optInt "threads_per_core" c.threads_per_core ++
  optInt "sockets" c.sockets ++
  optInt "numa_nodes" c.numa_nodes ++
  optEntry "frequency_mhz" c.frequency_mhz ++
  optStr "cache_l1d" c.cache_l1d ++
  optStr "cache_l1i" c.cache_l1i ++
  optStr "cache_l2" c.cache_l2 ++
  optStr "cache_l3" c.cache_l3 ++
  [("flags", .pdict (c.flags.map (fun kv => (kv.1, PyVal.pbool kv.2))))]

structure MemoryInfo where
  total_gb : Option Int := none
  total_kb : Option Int := none
  available_kb : Option Int := none
  speed_mhz : Option Int := none
  type : Option String := none

def MemoryInfo.to_dict (m : MemoryInfo) : List (String × PyVal) :=
  optInt "total_gb" m.total_gb ++
  optInt "total_kb" m.total_kb ++
  optInt "available_kb" m.available_kb ++
  optInt "speed_mhz" m.speed_mhz ++
  optStr "type" m.type

structure HardwareInfo where
  cpu : Option CPUInfo := none
  memory : Option MemoryInfo := none
  numa : Option (List (String × PyVal)) := none
  storage : Option (List (String × PyVal)) := none
  network : Option (List (String × PyVal)) := none

def HardwareInfo.to_dict (h : HardwareInfo) : List (String × PyVal) :=
  (match h.cpu with
   | some c => [("cpu", PyVal.pdict c.to_dict)]
   | none => []) ++
  (match h.memory with
   | some m => [("memory", PyVal.pdict m.to_dict)]
   | none => []) ++
  (if dictTruthy h.numa then [("numa", PyVal.pdict (h.numa.getD []))] else []) ++
  (if dictTruthy h.storage then [("storage", PyVal.pdict (h.storage.getD []))] else []) ++
  (if dictTruthy h.network then [("network", PyVal.pdict (h.network.getD []))] else [])

structure OperatingSystemInfo where
  distribution : Option String := none
  version : Option String := none
  kernel_version : Option String := none
  hostname : Option String := none

def OperatingSystemInfo.to_dict (o : OperatingSystemInfo) : List (String × PyVal) :=
  optStr "distribution" o.distribution ++
  optStr "version" o.version ++
  optStr "kernel_version" o.kernel_version ++
  optStr "hostname" o.hostname

structure ConfigurationInfo where
  tuned_profile : Option String := none
  selinux_status : Option String := none
  transparent_hugepages : Option String := none
  sysctl_parameters : Option (List (String × PyVal)) := none
  kernel_parameters : Option String := none

def ConfigurationInfo.to_dict (c : ConfigurationInfo) : List (String × PyVal) :=
  optStr "tuned_profile" c.tuned_profile ++
  optStr "selinux_status" c.selinux_status ++
  optStr "transparent_hugepages" c.transparent_hugepages ++
  optEntry "sysctl_parameters" (c.sysctl_parameters.map .pdict) ++
  optStr "kernel_parameters" c.kernel_parameters

structure SystemUnderTest where
  hardware : Option HardwareInfo := none
  operating_system : Option OperatingSystemInfo := none
  configuration : Option ConfigurationInfo := none

def SystemUnderTest.to_dict (s : SystemUnderTest) : List (String × PyVal) :=
  (match s.hardware with
   | some h => [("hardware", PyVal.pdict h.to_dict)]
   | none => []) ++
  (match s.operating_system with
   | some o => [("operating_system", PyVal.pdict o.to_dict)]
   | none => []) ++
  (match s.configuration with
   | some c => [("configuration", PyVal.pdict c.to_dict)]
   | none => [])

structure TestConfiguration where
  iterations_requested : Option Int := none
  parameters : Option (List (String × PyVal)) := none
  environment : Option (List (String × PyVal)) := none
  tuning : Option (List (String × PyVal)) := none

def TestConfiguration.to_dict (t : TestConfiguration) : List (String × PyVal) :=
  optInt "iterations_requested" t.iterations_requested ++
  optEntry "parameters" (t.parameters.map .pdict) ++
  optEntry "environment" (t.environment.map .pdict) ++
  optEntry "tuning" (t.tuning.map .pdict)

structure PrimaryMetric where
  name : String
  value : PyVal
  unit : String

def PrimaryMetric.to_dict (p : PrimaryMetric) : List (String × PyVal) :=
  [("name", .pstr p.name), ("value", p.value), ("unit", .pstr p.unit)]

structure StatisticalSummary where
  mean : Option PyVal := none
  median : Option PyVal := none
  min : Option PyVal := none
  max : Option PyVal := none
  stddev : Option PyVal := none
  variance : Option PyVal := none
  sample_count : Option Int := none
  percentile_95 : Option PyVal := none
  percentile_99 : Option PyVal := none

def StatisticalSummary.to_dict (s : StatisticalSummary) : List (String × PyVal) :=
  optEntry "mean" s.mean ++
  optEntry "median" s.median ++
  optEntry "min" s.min ++
  optEntry "max" s.max ++
  optEntry "stddev" s.stddev ++
  optEntry "variance" s.variance ++
  optInt "sample_count" s.sample_count ++
  optEntry "percentile_95" s.percentile_95 ++
  optEntry "percentile_99" s.percentile_99

structure TimeSeriesPoint where
  timestamp : String
  metrics : List (String × PyVal) := []

def TimeSeriesPoint.to_dict (p : TimeSeriesPoint) : List (String × PyVal) :=
  [("timestamp", .pstr p.timestamp), ("metrics", .pdict p.metrics)]

structure TimeSeriesSummary where
  count : Option Int := none
  mean : Option PyVal := none
  median : Option PyVal := none
  min : Option PyVal := none
  max : Option PyVal := none
  stddev : Option PyVal := none
  first_value : Option PyVal := none
  last_value : Option PyVal := none

def TimeSeriesSummary.to_dict (s : TimeSeriesSummary) : List (String × PyVal) :=
  optInt "count" s.count ++
  optEntry "mean" s.mean ++
  optEntry "median" s.median ++
  optEntry "min" s.min ++
  optEntry "max" s.max ++
  optEntry "stddev" s.stddev ++
  optEntry "first_value" s.first_value ++
  optEntry "last_value" s.last_value

structure Run where
  run_number : Int
  status : String := "UNKNOWN"
  start_time : Option String := none
  end_time : Option String := none
  duration_seconds : Option PyVal := none
  configuration : Option (List (String × PyVal)) := none
  metrics : Option (List (String × PyVal)) := none
  timeseries_summary : Option TimeSeriesSummary := none
  timeseries : Option (List (String × TimeSeriesPoint)) := none
  validation : Option (List (String × PyVal)) := none

/-- Truthiness of the optional timeseries mapping. -/
def tsTruthy : Option (List (String × TimeSeriesPoint)) → Bool
  | some (_ :: _) => true
  | _ => false

def Run.to_dict (r : Run) : List (String × PyVal) :=
  [("run_number", .pint r.run_number), ("status", .pstr r.status)] ++
  (if strTruthy r.start_time then [("start_time", PyVal.pstr (r.start_time.getD ""))] else []) ++
  (if strTruthy r.end_time then [("end_time", PyVal.pstr (r.end_time.getD ""))] else []) ++
  optEntry "duration_seconds" r.duration_seconds ++
  (if dictTruthy r.configuration then [("configuration", PyVal.pdict (r.configuration.getD []))] else []) ++
  (if dictTruthy r.metrics then [("metrics", PyVal.pdict (r.metrics.getD []))] else []) ++
  (match r.timeseries_summary with
   | some s => [("timeseries_summary", PyVal.pdict s.to_dict)]
   | none => []) ++
  (if tsTruthy r.timeseries then
     [("timeseries", PyVal.pdict ((r.timeseries.getD []).map
        (fun kv => (kv.1, PyVal.pdict kv.2.to_dict))))]
   else []) ++
  (if dictTruthy r.validation then [("validation", PyVal.pdict (r.validation.getD []))] else [])

structure Results where
  status : String := "UNKNOWN"
  execution_time_seconds : Option PyVal := none
  total_runs : Option Int := none
  primary_metric : Option PrimaryMetric := none
  overall_statistics : Option StatisticalSummary := none
  runs : Option (List (String × Run)) := none

/-- Truthiness of the optional runs mapping. -/
def runsTruthy : Option (List (String × Run)) → Bool
  | some (_ :: _) => true
  | _ => false

def Results.to_dict (r : Results) : List (String × PyVal) :=
  [("status", .pstr r.status)] ++
  optEntry "execution_time_seconds" r.execution_time_seconds ++
  optInt "total_runs" r.total_runs ++
  (match r.primary_metric with
   | some p => [("primary_metric", PyVal.pdict p.to_dict)]
   | none => []) ++
  (match r.overall_statistics with
   | some s => [("overall_statistics", PyVal.pdict s.to_dict)]
   | none => []) ++
  (if runsTruthy r.runs then
     [("runs", PyVal.pdict ((r.runs.getD []).map
        (fun kv => (kv.1, PyVal.pdict kv.2.to_dict))))]
   else [])

structure RuntimeInfo where
  start_time : Option String := none
  end_time : Option String := none
  duration_seconds : Option PyVal := none
  command : Option String := none
  working_directory : Option String := none
  user : Option String := none

def RuntimeInfo.to_dict (r : RuntimeInfo) : List (String × PyVal) :=
  optStr "start_time" r.start_time ++
  optStr "end_time" r.end_time ++
  optEntry "duration_seconds" r.duration_seconds ++
  optStr "command" r.command ++
  optStr "working_directory" r.working_directory ++
  optStr "user" r.user

structure ZathrasDocument where
  metadata : Metadata
  test : TestInfo
  system_under_test : SystemUnderTest
  test_configuration : TestConfiguration
  results : Results
  runtime_info : Option RuntimeInfo := none

def ZathrasDocument.to_dict (d : ZathrasDocument) : List (String × PyVal) :=
  [("metadata", PyVal.pdict d.metadata.to_dict),
   ("test", PyVal.pdict d.test.to_dict),
   ("system_under_test", PyVal.pdict d.system_under_test.to_dict),
   ("test_configuration", PyVal.pdict d.test_configuration.to_dict),
   ("results", PyVal.pdict d.results.to_dict)] ++
  (match d.runtime_info with
   | some r => [("runtime_info", PyVal.pdict r.to_dict)]
   | none => [])

/-! ## `ZathrasDocument` operations (`schema.py` lines 359-571) -/

/-- Delete the top-level `timeseries` key of one run's dict
(`if 'timeseries' in run_data: del run_data['timeseries']`; run values
produced by `Run.to_dict` are always dicts). -/
def delTimeseriesKey : PyVal → PyVal
  | .pdict kvs => .pdict (popKey "timeseries" kvs)
  | v => v

/-- `to_dict_summary_only`: the full dict with `timeseries` removed from
every entry of `results.runs` (when those keys exist). -/
def ZathrasDocument.to_dict_summary_only (d : ZathrasDocument) : List (String × PyVal) :=
  let result := d.to_dict
  if dictContains result "results" then
    match dictGet result "results" with
    | some (.pdict res) =>
        if dictContains res "runs" then
          mapValAt result "results" (fun _ =>
            .pdict (mapValAt res "runs" (fun runsVal =>
              match runsVal with
              | .pdict runs => .pdict (runs.map (fun kv => (kv.1, delTimeseriesKey kv.2)))
              | v => v)))
        else result
    | _ => result
  else result

/-- The four `pop` calls of `calculate_content_hash` applied to the
`metadata` sub-dict of the (deep-copied) summary dict. -/
def popHashExcluded (v : PyVal) : PyVal :=
  match v with
  | .pdict m =>
      .pdict (popKey "document_id"
               (popKey "collection_timestamp"
                 (popKey "test_timestamp"
                   (popKey "processing_timestamp" m))))
  | v => v

/-- `calculate_content_hash(exclude_processing_timestamp)`: canonical
JSON (`sort_keys=True`, separators `(',', ':')`) of the summary dict with
the timestamp/id metadata removed, hashed with SHA-256.  The deep copy of
the summary dict is the identity here: the model's values are immutable,
and the source's subsequent `pop`s act on the copy only. -/
def calculate_content_hash (d : ZathrasDocument) (exclude_processing_timestamp : Bool) :
    String :=
  let doc_dict := d.to_dict_summary_only
  let doc_dict :=
    if exclude_processing_timestamp && dictContains doc_dict "metadata" then
      mapValAt doc_dict "metadata" popHashExcluded
    else doc_dict
  sha256hex (strBytes (String.mk (pyDumpsSorted (.pdict doc_dict))))

/-- `calculate_content_hash()` with its default argument. -/
def contentHash (d : ZathrasDocument) : String := calculate_content_hash d true

/-- `BaseProcessor.process` after the document is assembled
(`base_processor.py` lines 138-143): compute the content hash and
overwrite `metadata.document_id` with `f"{test_name}_{content_hash[:16]}"`. -/
def processAssignId (d : ZathrasDocument) : ZathrasDocument :=
  let content_hash := contentHash d
  let test_name := d.test.name
  { d with metadata := { d.metadata with
      document_id := test_name ++ "_" ++ (content_hash.take 16) } }

/-! ### Timeseries extraction (`extract_timeseries_documents`) -/

structure TimeSeriesMetadata where
  document_id : String
  timeseries_id : String
  timestamp : String
  sequence : Int
  test_timestamp : Option String := none
  processing_timestamp : Option String := none
  os_vendor : Option String := none
  cloud_provider : Option String := none
  instance_type : Option String := none
  scenario_name : Option String := none
  iteration : Option Int := none

structure TimeSeriesRun where
  run_key : String
  run_number : Int
  status : String
  configuration : Option (List (String × PyVal)) := none
  benchmark_name : PyVal := .pnone
  benchmark_description : PyVal := .pnone

structure TimeSeriesResults where
  run : TimeSeriesRun
  value : PyVal
  unit : String
  point_metrics : Option (List (String × PyVal)) := none

structure TimeSeriesDocument where
  metadata : TimeSeriesMetadata
  test : TestInfo
  system_under_test : SystemUnderTest
  results : TimeSeriesResults

/-- The unit-inference loop over the run's metric key names: the first
key containing any cue decides, checking `seconds`/`_sec`, then `bops`,
then `mb_per_sec`/`bandwidth` on that key; no cue anywhere gives
`"unknown"`. -/
def inferUnitKeys : List String → String
  | [] => "unknown"
  | k :: rest =>
      if strIn "seconds" k || strIn "_sec" k then "seconds"
      else if strIn "bops" k then "bops"
      else if strIn "mb_per_sec" k || strIn "bandwidth" k then "MB/s"
      else inferUnitKeys rest

/-- `unit = "unknown"; if run.metrics: <scan loop>`. -/
def runUnit (r : Run) : String :=
  if dictTruthy r.metrics then inferUnitKeys ((r.metrics.getD []).map (·.1))
  else "unknown"

/-- `run.metrics.get('benchmark_name') if run.metrics else None`. -/
def runBenchName (r : Run) : PyVal :=
  if dictTruthy r.metrics then dictGetD (r.metrics.getD []) "benchmark_name" .pnone
  else .pnone

/-- `run.metrics.get('description') if run.metrics else None`. -/
def runBenchDesc (r : Run) : PyVal :=
  if dictTruthy r.metrics then dictGetD (r.metrics.getD []) "description" .pnone
  else .pnone

/-- The primary-value selection for one point: `value_seconds`, else
`throughput_bops`, else `value`, else the first `isinstance(v, (int,
float))` entry; remaining entries become `point_metrics`.  Returns
`(.pnone, [])` when nothing matched — `value` stays Python `None`. -/
def resolveValue (metrics : List (String × PyVal)) : PyVal × List (String × PyVal) :=
  match metrics with
  | [] => (.pnone, [])
  | _ :: _ =>
      if dictContains metrics "value_seconds" then
        (dictGetD metrics "value_seconds" .pnone,
         metrics.filter (fun kv => kv.1 != "value_seconds"))
      else if dictContains metrics "throughput_bops" then
        (dictGetD metrics "throughput_bops" .pnone,
         metrics.filter (fun kv => kv.1 != "throughput_bops"))
      else if dictContains metrics "value" then
        (dictGetD metrics "value" .pnone,
         metrics.filter (fun kv => kv.1 != "value"))
      else
        match metrics.find? (fun kv => kv.2.isNumericPy) with
        | some kv => (kv.2, metrics.filter (fun x => x.1 != kv.1))
        | none => (.pnone, [])

/-- Build the `TimeSeriesDocument` for one point (source lines 487-523). -/
def mkTsDoc (d : ZathrasDocument) (runKey : String) (r : Run) (unit : String)
    (seqKey : String) (sequence : Int) (pt : TimeSeriesPoint)
    (value : PyVal) (pointMetrics : List (String × PyVal)) : TimeSeriesDocument :=
  { metadata :=
      { document_id := d.metadata.document_id
        timeseries_id := d.metadata.document_id ++ "_" ++ runKey ++ "_" ++ seqKey
        timestamp := pt.timestamp
        sequence := sequence
        test_timestamp := d.metadata.test_timestamp
        processing_timestamp := some d.metadata.processing_timestamp
        os_vendor := d.metadata.os_vendor
        cloud_provider := d.metadata.cloud_provider
        instance_type := d.metadata.instance_type
        scenario_name := d.metadata.scenario_name
        iteration := d.metadata.iteration }
    test := d.test
    system_under_test := d.system_under_test
    results :=
      { run :=
          { run_key := runKey
            run_number := r.run_number
            status := r.status
            configuration := r.configuration
            benchmark_name := runBenchName r
            benchmark_description := runBenchDesc r }
        value := value
        unit := unit
        point_metrics := if pointMetrics.isEmpty then none else some pointMetrics } }

/-- `v is None`. -/
def PyVal.isNone : PyVal → Bool
  | .pnone => true
  | _ => false

/-- The inner `for seq_key, ts_point in run.timeseries.items()` loop
(`if value is None: continue`). -/
def extractPoints (d : ZathrasDocument) (runKey : String) (r : Run) (unit : String) :
    List (String × TimeSeriesPoint) → Except PyErr (List TimeSeriesDocument)
  | [] => .ok []
  | (seqKey, pt) :: rest => do
      let sequence ← parseSeqIndex seqKey
      let tail ← extractPoints d runKey r unit rest
      let vp := resolveValue pt.metrics
      if vp.1.isNone then .ok tail
      else .ok (mkTsDoc d runKey r unit seqKey sequence pt vp.1 vp.2 :: tail)

/-- The outer `for run_key, run in self.results.runs.items()` loop
(`if not run.timeseries: continue` skips falsy timeseries). -/
def extractRuns (d : ZathrasDocument) :
    List (String × Run) → Except PyErr (List TimeSeriesDocument)
  | [] => .ok []
  | (runKey, r) :: rest => do
      let here ←
        if tsTruthy r.timeseries then
          extractPoints d runKey r (runUnit r) (r.timeseries.getD [])
        else .ok []
      let there ← extractRuns d rest
      .ok (here ++ there)

/-- `extract_timeseries_documents`: iterates `self.results.runs.items()`
unconditionally, so a `None` runs mapping raises `AttributeError`. -/
def ZathrasDocument.extract_timeseries_documents (d : ZathrasDocument) :
    Except PyErr (List TimeSeriesDocument) :=
  match d.results.runs with
  | none => .error .attributeError
  | some rs => extractRuns d rs

/-! ### Validation and the key utilities -/

/-- `validate`: accumulate every violation, return `(errors == [], errors)`. -/
def ZathrasDocument.validate (d : ZathrasDocument) : Bool × List String :=
  let errors :=
    (if !pyStrTruthy d.metadata.document_id then ["metadata.document_id is required"] else []) ++
    (if !pyStrTruthy d.test.name then ["test.name is required"] else []) ++
    (if !pyStrTruthy d.results.status then ["results.status is required"] else [])
  let errors :=
    if runsTruthy d.results.runs then
      errors ++ (d.results.runs.getD []).flatMap (fun kv =>
        (if !pyStartsWith kv.1 "run_" then
           ["Invalid run key: " ++ kv.1 ++ ". Must start with \x27run_\x27"]
         else []) ++
        (if tsTruthy kv.2.timeseries then
           (kv.2.timeseries.getD []).flatMap (fun ts =>
             if !pyStartsWith ts.1 "sequence_" then
               ["Invalid sequence key in " ++ kv.1 ++ ".timeseries: " ++ ts.1 ++
                ". Must start with \x27sequence_\x27"]
             else [])
         else []))
    else errors
  (errors.isEmpty, errors)

/-- `create_run_key(n)`: `f"run_{run_number}"`. -/
def create_run_key (n : Int) : String := "run_" ++ pyIntStr n

/-- `create_sequence_key(n)`: `f"sequence_{sequence}"`. -/
def create_sequence_key (n : Int) : String := "sequence_" ++ pyIntStr n

/-! ## Export orchestration (`run_postprocessing.py` lines 390-446 and
`opensearch_exporter.py` `create_document`) -/

/-- The statistics counters touched by the per-document OpenSearch export
step (`ProcessingStats`). -/
structure ExportStats where
  documents_created : Nat := 0
  documents_duplicates : Nat := 0
  timeseries_indexed : Nat := 0
  timeseries_skipped : Nat := 0

/-- `create_document`'s mapping of the store's raw response to its
result: on success the response's `result` field (defaulting to
`"created"`), on an exception whose text mentions a version conflict or
409 the `"duplicate"` outcome, any other exception re-raised. -/
def createDocumentResult (resp : Except String (List (String × PyVal))) :
    Except String String :=
  match resp with
  | .ok r =>
      .ok (match dictGet r "result" with
           | some (.pstr s) => s
           | _ => "created")
  | .error e =>
      if strIn "version_conflict_engine_exception" e || strIn "409" e then
        .ok "duplicate"
      else .error e

/-- `sum(len(run.timeseries) for run in document.results.runs.values()
if run.timeseries)`. -/
def tsPointCount (d : ZathrasDocument) : Nat :=
  ((d.results.runs.getD []).map (fun kv =>
    if tsTruthy kv.2.timeseries then (kv.2.timeseries.getD []).length else 0)).sum

/-- One document's OpenSearch branch of the export loop: takes the
store's raw response to `create_document` and the count the timeseries
exporter would report, returns the updated stats, whether the timeseries
exporter was invoked, and whether the step recorded an export failure. -/
def exportDocStep (d : ZathrasDocument)
    (resp : Except String (List (String × PyVal))) (tsSuccessful : Nat)
    (stats : ExportStats) : ExportStats × Bool × Bool :=
  match createDocumentResult resp with
  | .error _ => (stats, false, true)
  | .ok op =>
      if op = "created" then
        let stats := { stats with documents_created := stats.documents_created + 1 }
        if tsPointCount d > 0 then
          ({ stats with timeseries_indexed := stats.timeseries_indexed + tsSuccessful },
           true, false)
        else (stats, false, false)
      else if op = "duplicate" then
        let stats := { stats with documents_duplicates := stats.documents_duplicates + 1 }
        if tsPointCount d > 0 then
          ({ stats with timeseries_skipped := stats.timeseries_skipped + tsPointCount d },
           false, false)
        else (stats, false, false)
      else (stats, false, false)

/-! ## Specification-side notions

Definitions phrased from the spec's wording, used to state the claims
against the code-side definitions above. -/

mutual

/-- Number of occurrences of `needle` as a mapping key anywhere in a
value (the spec's "zero occurrences of a `timeseries` key"). -/
def countKey (needle : String) : PyVal → Nat
  | .pdict kvs => countKeyKVs needle kvs
  | .plist xs => countKeyList needle xs
  | _ => 0

def countKeyList (needle : String) : List PyVal → Nat
  | [] => 0
  | v :: rest => countKey needle v + countKeyList needle rest

def countKeyKVs (needle : String) : List (String × PyVal) → Nat
  | [] => 0
  | (k, v) :: rest =>
      (if k = needle then 1 else 0) + countKey needle v + countKeyKVs needle rest

end

/-- The spec's key pattern `<pre><non-negative integer>`: the prefix
followed by a non-empty run of decimal digits. -/
def matchesKeyPat (pre s : String) : Bool :=
  pre.data.isPrefixOf s.data &&
    !(s.data.drop pre.data.length).isEmpty &&
    (s.data.drop pre.data.length).all isPyDigit

def isRunKeyFormat (s : String) : Bool := matchesKeyPat "run_" s

def isSeqKeyFormat (s : String) : Bool := matchesKeyPat "sequence_" s

/-- The spec's notion of a point with a resolvable scalar value: one of
the named metrics is present, or some entry is numeric. -/
def resolvableMetrics (m : List (String × PyVal)) : Bool :=
  dictContains m "value_seconds" || dictContains m "throughput_bops" ||
    dictContains m "value" || m.any (fun kv => kv.2.isNumericPy)

/-- What remains of the metadata dict after `calculate_content_hash`
pops the three timestamps and the document id. -/
def metaResidual (m : Metadata) : List (String × PyVal) :=
  [("document_type", .pstr m.document_type),
   ("zathras_version", .pstr m.zathras_version)] ++
  optStr "os_vendor" m.os_vendor ++
  optStr "cloud_provider" m.cloud_provider ++
  optStr "instance_type" m.instance_type ++
  optInt "iteration" m.iteration ++
  optStr "scenario_name" m.scenario_name

/-- The results section as the summary projection renders it: the runs
mapping (when present) with each run's `timeseries` key removed. -/
def resultsSummary (r : Results) : List (String × PyVal) :=
  mapValAt r.to_dict "runs" (fun v =>
    match v with
    | .pdict runs => .pdict (runs.map (fun kv => (kv.1, delTimeseriesKey kv.2)))
    | v => v)

/-- The dict `calculate_content_hash` serializes (summary projection
with the metadata residual). -/
def hashEntries (d : ZathrasDocument) : List (String × PyVal) :=
  [("metadata", .pdict (metaResidual d.metadata)),
   ("test", .pdict d.test.to_dict),
   ("system_under_test", .pdict d.system_under_test.to_dict),
   ("test_configuration", .pdict d.test_configuration.to_dict),
   ("results", .pdict (resultsSummary d.results))] ++
  (match d.runtime_info with
   | some r => [("runtime_info", PyVal.pdict r.to_dict)]
   | none => [])

/-- The `results.runs` sub-dict of the summary projection. -/
def summaryRunsSection (d : ZathrasDocument) : PyVal :=
  match dictGet d.to_dict_summary_only "results" with
  | some (.pdict res) => dictGetD res "runs" (.pdict [])
  | _ => .pdict []

/-! ## Dict-algebra helper lemmas -/

@[simp] theorem dictContains_nil (k : String) : dictContains [] k = false := rfl

@[simp] theorem dictContains_cons (k' : String) (v : PyVal) (l : List (String × PyVal))
    (k : String) : dictContains ((k', v) :: l) k = (k' == k || dictContains l k) := by
  simp [dictContains]

@[simp] theorem dictContains_append (xs ys : List (String × PyVal)) (k : String) :
    dictContains (xs ++ ys) k = (dictContains xs k || dictContains ys k) := by
  simp [dictContains]

@[simp] theorem dictContains_optStr (k' : String) (v : Option String) (k : String) :
    dictContains (optStr k' v) k = (v.isSome && (k' == k)) := by
  cases v <;> simp [optStr, optEntry]

@[simp] theorem dictContains_optInt (k' : String) (v : Option Int) (k : String) :
    dictContains (optInt k' v) k = (v.isSome && (k' == k)) := by
  cases v <;> simp [optInt, optEntry]

@[simp] theorem dictContains_optEntry (k' : String) (v : Option PyVal) (k : String) :
    dictContains (optEntry k' v) k = (v.isSome && (k' == k)) := by
  cases v <;> simp [optEntry]

@[simp] theorem dictGet_nil (k : String) : dictGet [] k = none := rfl

@[simp] theorem dictGet_cons (k' : String) (v : PyVal) (l : List (String × PyVal))
    (k : String) :
    dictGet ((k', v) :: l) k = if k' == k then some v else dictGet l k := by
  by_cases h : k' == k <;> simp [dictGet, List.find?_cons, h]

@[simp] theorem popKey_nil (k : String) : popKey k [] = [] := rfl

@[simp] theorem popKey_cons (k : String) (k' : String) (v : PyVal)
    (l : List (String × PyVal)) :
    popKey k ((k', v) :: l) = if k' == k then l else (k', v) :: popKey k l := by
  by_cases h : k' == k <;> simp [popKey, List.eraseP_cons, h]

theorem popKey_of_not_contains (k : String) (l : List (String × PyVal))
    (h : dictContains l k = false) : popKey k l = l := by
  induction l with
  | nil => rfl
  | cons kv rest ih =>
      obtain ⟨k', v⟩ := kv
      simp only [dictContains_cons, Bool.or_eq_false_iff] at h
      simp [popKey_cons, h.1, ih h.2]

theorem popKey_append_of_not_contains (k : String) (xs ys : List (String × PyVal))
    (h : dictContains xs k = false) : popKey k (xs ++ ys) = xs ++ popKey k ys := by
  induction xs with
  | nil => rfl
  | cons kv rest ih =>
      obtain ⟨k', v⟩ := kv
      simp only [dictContains_cons, Bool.or_eq_false_iff] at h
      simp [popKey_cons, h.1, ih h.2]

theorem dictGet_popKey_ne (k q : String) (l : List (String × PyVal)) (h : q ≠ k) :
    dictGet (popKey k l) q = dictGet l q := by
  induction l with
  | nil => rfl
  | cons kv rest ih =>
      obtain ⟨k', v⟩ := kv
      by_cases hk : k' == k
      · have hk' : k' = k := by simpa using hk
        have hkq : (k' == q) = false := by
          simp only [beq_eq_false_iff_ne]
          exact fun hq => h (hq ▸ hk')
        simp [popKey_cons, hk, hkq]
      · simp [popKey_cons, hk, ih]

@[simp] theorem mapValAt_nil (k : String) (f : PyVal → PyVal) : mapValAt [] k f = [] := rfl

@[simp] theorem mapValAt_cons (k' : String) (v : PyVal) (l : List (String × PyVal))
    (k : String) (f : PyVal → PyVal) :
    mapValAt ((k', v) :: l) k f =
      (if k' == k then (k', f v) else (k', v)) :: mapValAt l k f := by
  by_cases h : k' == k <;> simp only [mapValAt, List.map_cons, h, if_true, if_false,
    Bool.false_eq_true, ite_true, ite_false]

@[simp] theorem mapValAt_append (xs ys : List (String × PyVal)) (k : String)
    (f : PyVal → PyVal) :
    mapValAt (xs ++ ys) k f = mapValAt xs k f ++ mapValAt ys k f := by
  simp [mapValAt]

theorem mapValAt_of_not_contains (k : String) (l : List (String × PyVal))
    (f : PyVal → PyVal) (h : dictContains l k = false) : mapValAt l k f = l := by
  induction l with
  | nil => rfl
  | cons kv rest ih =>
      obtain ⟨k', v⟩ := kv
      simp only [dictContains_cons, Bool.or_eq_false_iff] at h
      simp [mapValAt_cons, h.1, ih h.2]

theorem popKey_optStr_self (k : String) (v : Option String) (ys : List (String × PyVal))
    (h : dictContains ys k = false) : popKey k (optStr k v ++ ys) = ys := by
  cases v with
  | none => simpa [optStr, optEntry] using popKey_of_not_contains k ys h
  | some s => simp [optStr, optEntry, popKey_cons]

/-- The four pops of `calculate_content_hash` turn the metadata dict into
its residual, whatever the timestamp/id fields were. -/
theorem popHashExcluded_to_dict (m : Metadata) :
    popHashExcluded (.pdict m.to_dict) = .pdict (metaResidual m) := by
  simp [popHashExcluded, Metadata.to_dict, metaResidual, popKey_cons,
    popKey_append_of_not_contains, popKey_optStr_self, popKey_of_not_contains]

theorem dictContains_results_runs (r : Results) :
    dictContains r.to_dict "runs" = runsTruthy r.runs := by
  rcases r with ⟨st, ex, tot, pm, os, runs⟩
  match runs with
  | none => cases pm <;> cases os <;> simp [Results.to_dict, runsTruthy]
  | some [] => cases pm <;> cases os <;> simp [Results.to_dict, runsTruthy]
  | some (q :: rest) => cases pm <;> cases os <;> simp [Results.to_dict, runsTruthy]

/-- Shape of the summary projection: the document dict with the results
section replaced by its timeseries-stripped form. -/
theorem to_dict_summary_only_shape (d : ZathrasDocument) :
    d.to_dict_summary_only =
      [("metadata", PyVal.pdict d.metadata.to_dict),
       ("test", PyVal.pdict d.test.to_dict),
       ("system_under_test", PyVal.pdict d.system_under_test.to_dict),
       ("test_configuration", PyVal.pdict d.test_configuration.to_dict),
       ("results", PyVal.pdict (resultsSummary d.results))] ++
      (match d.runtime_info with
       | some r => [("runtime_info", PyVal.pdict r.to_dict)]
       | none => []) := by
  rcases d with ⟨m, t, s, c, r, rt⟩
  by_cases hruns : dictContains r.to_dict "runs"
  · cases rt <;>
      simp [ZathrasDocument.to_dict_summary_only, ZathrasDocument.to_dict,
        resultsSummary, hruns, dictGet_cons, dictContains_cons, mapValAt_cons,
        mapValAt_of_not_contains]
  · cases rt <;>
      simp [ZathrasDocument.to_dict_summary_only, ZathrasDocument.to_dict,
        resultsSummary, hruns, dictGet_cons, dictContains_cons, mapValAt_cons,
        mapValAt_of_not_contains, Bool.not_eq_true]

/-- `calculate_content_hash` in normal form: SHA-256 of the canonical
serialization of `hashEntries`. -/
theorem calculate_content_hash_normal (d : ZathrasDocument) :
    contentHash d =
      sha256hex (strBytes (String.mk (pySer (canon (.pdict (hashEntries d)))))) := by
  rcases hd : d.runtime_info with _ | rt <;>
    simp [contentHash, calculate_content_hash, pyDumpsSorted,
      to_dict_summary_only_shape, hashEntries, hd, mapValAt_cons,
      popHashExcluded_to_dict]

/-- Canonical form of the five-section top level (no runtime info):
object keys in sorted order, values canonicalized. -/
theorem canon_top5 (vm vt vs vc vr : PyVal) :
    canon (.pdict [("metadata", vm), ("test", vt), ("system_under_test", vs),
                   ("test_configuration", vc), ("results", vr)]) =
      .pdict [("metadata", canon vm), ("results", canon vr),
              ("system_under_test", canon vs), ("test", canon vt),
              ("test_configuration", canon vc)] := by
  rfl

/-- Canonical form of the six-section top level (runtime info present). -/
theorem canon_top6 (vm vt vs vc vr vrt : PyVal) :
    canon (.pdict [("metadata", vm), ("test", vt), ("system_under_test", vs),
                   ("test_configuration", vc), ("results", vr),
                   ("runtime_info", vrt)]) =
      .pdict [("metadata", canon vm), ("results", canon vr),
              ("runtime_info", canon vrt), ("system_under_test", canon vs),
              ("test", canon vt), ("test_configuration", canon vc)] := by
  rfl

/-! ## Claim C1: determinism of the content hash -/

/-- **C1** (amended).  Two documents whose summary-relevant content is
deep-equal up to mapping key order — test, system under test, test
configuration, results with per-run timeseries removed — and which also
agree on the remaining metadata fields (document_type, zathras_version,
os_vendor, cloud_provider, instance_type, iteration, scenario_name) and
on runtime_info, receive the identical 64-character lowercase hex
digest from `calculate_content_hash`, regardless of
processing_timestamp, test_timestamp, collection_timestamp, document_id,
per-run timeseries content, and insertion order of nested mappings. -/
theorem c1_content_hash_deterministic (d1 d2 : ZathrasDocument)
    (hmeta : d1.metadata.document_type = d2.metadata.document_type ∧
             d1.metadata.zathras_version = d2.metadata.zathras_version ∧
             d1.metadata.os_vendor = d2.metadata.os_vendor ∧
             d1.metadata.cloud_provider = d2.metadata.cloud_provider ∧
             d1.metadata.instance_type = d2.metadata.instance_type ∧
             d1.metadata.iteration = d2.metadata.iteration ∧
             d1.metadata.scenario_name = d2.metadata.scenario_name)
    (htest : canon (.pdict d1.test.to_dict) = canon (.pdict d2.test.to_dict))
    (hsut : canon (.pdict d1.system_under_test.to_dict) =
            canon (.pdict d2.system_under_test.to_dict))
    (hconf : canon (.pdict d1.test_configuration.to_dict) =
             canon (.pdict d2.test_configuration.to_dict))
    (hres : canon (.pdict (resultsSummary d1.results)) =
            canon (.pdict (resultsSummary d2.results)))
    (hrt : d1.runtime_info.map (fun r => canon (.pdict r.to_dict)) =
           d2.runtime_info.map (fun r => canon (.pdict r.to_dict))) :
    contentHash d1 = contentHash d2 ∧ (contentHash d1).length = 64 ∧
      ∀ ch ∈ (contentHash d1).data, ch ∈ hexDigits := by
  have hmr : metaResidual d1.metadata = metaResidual d2.metadata := by
    obtain ⟨h1, h2, h3, h4, h5, h6, h7⟩ := hmeta
    simp [metaResidual, h1, h2, h3, h4, h5, h6, h7]
  have key : canon (.pdict (hashEntries d1)) = canon (.pdict (hashEntries d2)) := by
    rcases h1 : d1.runtime_info with _ | r1 <;> rcases h2 : d2.runtime_info with _ | r2 <;>
      rw [h1, h2] at hrt
    · simp only [hashEntries, h1, h2, List.append_nil]
      rw [canon_top5, canon_top5, hmr, htest, hsut, hconf, hres]
    · simp at hrt
    · simp at hrt
    · simp only [hashEntries, h1, h2, List.cons_append, List.nil_append]
      rw [canon_top6, canon_top6, hmr, htest, hsut, hconf, hres]
      simp only [Option.map_some', Option.some.injEq] at hrt
      rw [hrt]
  rw [calculate_content_hash_normal, calculate_content_hash_normal, key]
  exact ⟨rfl, sha256hex_length _, sha256hex_lowercase_hex _⟩

def c1TestInfo : TestInfo := { name := "coremark", version := "1.0" }

def c1Run1 : Run :=
  { run_number := 1, status := "PASS",
    metrics := some [("iterations_per_second", .pfloat "193245.2")],
    timeseries := some [("sequence_0",
      { timestamp := "2025-01-01T00:00:00Z",
        metrics := [("value_seconds", .pfloat "0.25")] })] }

def c1Run1B : Run :=
  { run_number := 1, status := "PASS",
    metrics := some [("iterations_per_second", .pfloat "193245.2")],
    timeseries := some [("sequence_0",
      { timestamp := "1999-12-31T23:59:59Z",
        metrics := [("value_seconds", .pfloat "9.75")] }),
      ("sequence_1",
      { timestamp := "1999-12-31T23:59:60Z",
        metrics := [("value_seconds", .pfloat "8.5")] })] }

def c1Run2 : Run := { run_number := 2, status := "PASS", timeseries := some [] }

def c1WitnessA : ZathrasDocument :=
  { metadata := { document_id := "idA", processing_timestamp := "2025-01-02T00:00:00Z",
                  test_timestamp := some "2025-01-01T00:00:00Z", os_vendor := some "rhel" }
    test := c1TestInfo
    system_under_test := {}
    test_configuration := { parameters := some [("alpha", .pint 1), ("beta", .pint 2)] }
    results := { status := "PASS", runs := some [("run_1", c1Run1), ("run_2", c1Run2)] } }

def c1WitnessB : ZathrasDocument :=
  { metadata := { document_id := "idB", processing_timestamp := "2026-06-06T06:06:06Z",
                  test_timestamp := some "2026-06-05T00:00:00Z",
                  collection_timestamp := some "2026-06-05T00:00:00Z",
                  os_vendor := some "rhel" }
    test := c1TestInfo
    system_under_test := {}
    test_configuration := { parameters := some [("beta", .pint 2), ("alpha", .pint 1)] }
    results := { status := "PASS", runs := some [("run_2", c1Run2), ("run_1", c1Run1B)] } }

/-- Witness for C1: two concrete documents with different timestamps,
document ids, per-run timeseries and mapping insertion orders satisfy the
hypotheses and so hash identically. -/
theorem c1_content_hash_deterministic_witness :
    c1WitnessA.metadata.processing_timestamp ≠ c1WitnessB.metadata.processing_timestamp ∧
    c1WitnessA.metadata.document_id ≠ c1WitnessB.metadata.document_id ∧
    (c1WitnessA.results.runs.getD []).map (·.1) ≠ (c1WitnessB.results.runs.getD []).map (·.1) ∧
    (contentHash c1WitnessA = contentHash c1WitnessB ∧
      (contentHash c1WitnessA).length = 64 ∧
      ∀ ch ∈ (contentHash c1WitnessA).data, ch ∈ hexDigits) :=
  ⟨by decide, by decide, by decide,
   c1_content_hash_deterministic c1WitnessA c1WitnessB
     ⟨rfl, rfl, rfl, rfl, rfl, rfl, rfl⟩ rfl rfl (by rfl) (by rfl) rfl⟩

def c1CexA : ZathrasDocument :=
  { metadata := { document_id := "x", processing_timestamp := "T", os_vendor := some "a" }
    test := c1TestInfo
    system_under_test := {}
    test_configuration := {}
    results := { status := "PASS" } }

def c1CexB : ZathrasDocument :=
  { metadata := { document_id := "x", processing_timestamp := "T", os_vendor := some "b" }
    test := c1TestInfo
    system_under_test := {}
    test_configuration := {}
    results := { status := "PASS" } }

/-- Counterexample to C1 as stated: the two documents agree exactly on
test, system_under_test, test_configuration and results (so their
summary-relevant content is deep-equal), yet their content hashes
differ, because the hash also covers `metadata.os_vendor` (and the other
non-timestamp metadata fields and runtime_info). -/
theorem c1_counterexample :
    c1CexA.test = c1CexB.test ∧
    c1CexA.system_under_test = c1CexB.system_under_test ∧
    c1CexA.test_configuration = c1CexB.test_configuration ∧
    c1CexA.results = c1CexB.results ∧
    contentHash c1CexA ≠ contentHash c1CexB :=
  ⟨rfl, rfl, rfl, rfl, by decide⟩

/-! ## Claim C2: document id assignment in `BaseProcessor.process` -/

theorem contentHash_docid_invariant (d : ZathrasDocument) (x : String) :
    contentHash { d with metadata := { d.metadata with document_id := x } } =
      contentHash d := by
  rw [calculate_content_hash_normal, calculate_content_hash_normal]
  rcases d with ⟨m, t, s, c, r, rt⟩
  rcases m with ⟨_, _, _, _, _, _, _, _, _, _, _⟩
  rfl

/-- **C2**.  After `BaseProcessor.process` assigns the id, the final
`metadata.document_id` equals `test.name ++ "_" ++` the first 16
characters of the content hash of the finished document; this is
well-defined because the hash ignores `document_id`, so the hash of the
finished document equals the hash used to build the id. -/
theorem c2_process_document_id (d : ZathrasDocument) :
    (processAssignId d).metadata.document_id =
      (processAssignId d).test.name ++ "_" ++
        (contentHash (processAssignId d)).take 16 ∧
    contentHash (processAssignId d) = contentHash d := by
  have hinv := contentHash_docid_invariant d
    (d.test.name ++ "_" ++ (contentHash d).take 16)
  constructor
  · show d.test.name ++ "_" ++ (contentHash d).take 16 =
      d.test.name ++ "_" ++ (contentHash (processAssignId d)).take 16
    rw [show contentHash (processAssignId d) = contentHash d from hinv]
  · exact hinv

/-! ## Claim C3: totality of the summary/timeseries split -/

/-- `Run.to_dict` without its `timeseries` chunk. -/
def runSummaryEntries (r : Run) : List (String × PyVal) :=
  [("run_number", .pint r.run_number), ("status", .pstr r.status)] ++
  (if strTruthy r.start_time then [("start_time", PyVal.pstr (r.start_time.getD ""))] else []) ++
  (if strTruthy r.end_time then [("end_time", PyVal.pstr (r.end_time.getD ""))] else []) ++
  optEntry "duration_seconds" r.duration_seconds ++
  (if dictTruthy r.configuration then [("configuration", PyVal.pdict (r.configuration.getD []))] else []) ++
  (if dictTruthy r.metrics then [("metrics", PyVal.pdict (r.metrics.getD []))] else []) ++
  (match r.timeseries_summary with
   | some s => [("timeseries_summary", PyVal.pdict s.to_dict)]
   | none => []) ++
  (if dictTruthy r.validation then [("validation", PyVal.pdict (r.validation.getD []))] else [])

@[simp] theorem dictContains_ite (c : Prop) [Decidable c] (xs ys : List (String × PyVal))
    (k : String) :
    dictContains (if c then xs else ys) k =
      if c then dictContains xs k else dictContains ys k := by
  split <;> rfl

theorem popKey_timeseries_run (r : Run) :
    popKey "timeseries" r.to_dict = runSummaryEntries r := by
  by_cases hts : tsTruthy r.timeseries <;>
    cases hsum : r.timeseries_summary <;>
      simp [Run.to_dict, runSummaryEntries, hts, hsum, popKey_cons,
        List.append_assoc, popKey_append_of_not_contains, popKey_of_not_contains]

theorem dictGet_mapValAt_self (l : List (String × PyVal)) (k : String) (f : PyVal → PyVal) :
    dictGet (mapValAt l k f) k = (dictGet l k).map f := by
  induction l with
  | nil => rfl
  | cons kv rest ih =>
      obtain ⟨k', v⟩ := kv
      by_cases h : k' == k <;> simp [mapValAt_cons, dictGet_cons, h, ih]

theorem dictGet_append_of_not_left (xs ys : List (String × PyVal)) (k : String)
    (h : dictContains xs k = false) : dictGet (xs ++ ys) k = dictGet ys k := by
  induction xs with
  | nil => rfl
  | cons kv rest ih =>
      obtain ⟨k', v⟩ := kv
      simp only [dictContains_cons, Bool.or_eq_false_iff] at h
      simp [dictGet_cons, h.1, ih h.2, List.cons_append]

theorem dictGet_results_runs (r : Results) (rs : List (String × Run))
    (hrs : r.runs = some rs) (hne : rs ≠ []) :
    dictGet r.to_dict "runs" =
      some (.pdict (rs.map (fun kv => (kv.1, PyVal.pdict kv.2.to_dict)))) := by
  match rs, hne with
  | q :: rest, _ =>
      cases hpm : r.primary_metric <;> cases hos : r.overall_statistics <;>
        simp [Results.to_dict, hrs, hpm, hos, runsTruthy, dictGet_cons,
          dictGet_append_of_not_left, apply_ite]

/-- **C3** (amended).  The summary projection removes exactly the
top-level `timeseries` entry of every run dict: each run appears with
its `timeseries` key deleted, no run dict in the output has a top-level
`timeseries` key, `timeseries_summary` is left intact, and every other
key's value is unchanged.  (Occurrences of a `timeseries` key nested
inside free-form payloads such as `configuration` are preserved, which
is what refutes the claim as stated.) -/
theorem c3_summary_strips_top_level_timeseries (d : ZathrasDocument)
    (rs : List (String × Run)) (hrs : d.results.runs = some rs) (hne : rs ≠ []) :
    summaryRunsSection d =
      .pdict (rs.map (fun kv => (kv.1, PyVal.pdict (runSummaryEntries kv.2)))) ∧
    ∀ kv ∈ rs,
      dictContains (runSummaryEntries kv.2) "timeseries" = false ∧
      dictGet (runSummaryEntries kv.2) "timeseries_summary" =
        dictGet kv.2.to_dict "timeseries_summary" ∧
      ∀ q : String, q ≠ "timeseries" →
        dictGet (runSummaryEntries kv.2) q = dictGet kv.2.to_dict q := by
  constructor
  · have hsec : summaryRunsSection d =
        (dictGetD (resultsSummary d.results) "runs" (.pdict [])) := by
      simp [summaryRunsSection, to_dict_summary_only_shape, dictGet_cons]
    rw [hsec]
    simp only [resultsSummary, dictGetD, dictGet_mapValAt_self,
      dictGet_results_runs d.results rs hrs hne, Option.map_some', Option.getD_some]
    simp only [List.map_map]
    congr 1
    congr 1
    funext kv
    simp [Function.comp, delTimeseriesKey, popKey_timeseries_run]
  · intro kv _
    refine ⟨?_, ?_, ?_⟩
    · cases hsum : kv.2.timeseries_summary <;>
        simp [runSummaryEntries, hsum, List.append_assoc]
    · rw [← popKey_timeseries_run]
      exact dictGet_popKey_ne _ _ _ (by decide)
    · intro q hq
      rw [← popKey_timeseries_run]
      exact dictGet_popKey_ne _ _ _ hq

def c3Run : Run :=
  { run_number := 1, status := "PASS",
    configuration := some [("timeseries", .pint 7)],
    timeseries := some [("sequence_0",
      { timestamp := "2025-01-01T00:00:00Z",
        metrics := [("value", .pint 3)] })] }

def c3Doc : ZathrasDocument :=
  { metadata := { document_id := "x", processing_timestamp := "T" }
    test := c1TestInfo
    system_under_test := {}
    test_configuration := {}
    results := { status := "PASS", runs := some [("run_1", c3Run)] } }

/-- Counterexample to C3 as stated: after `to_dict_summary_only` there is
still one occurrence of a `timeseries` key under `results.runs`, nested
inside the run's free-form `configuration` payload — the projection only
deletes the top-level `timeseries` entry of each run dict. -/
theorem c3_counterexample :
    countKey "timeseries" (summaryRunsSection c3Doc) = 1 := by
  rfl

/-- Witness for C3 (amended) at a concrete document. -/
theorem c3_summary_strips_top_level_timeseries_witness :
    summaryRunsSection c3Doc =
      .pdict ((c3Doc.results.runs.getD []).map
        (fun kv => (kv.1, PyVal.pdict (runSummaryEntries kv.2)))) ∧
    ∀ kv ∈ (c3Doc.results.runs.getD []),
      dictContains (runSummaryEntries kv.2) "timeseries" = false := by
  have h := c3_summary_strips_top_level_timeseries c3Doc
    [("run_1", c3Run)] rfl (List.cons_ne_nil _ _)
  exact ⟨h.1, fun kv hkv => (h.2 kv hkv).1⟩

/-! ## Claim C8: sequence key round-trip and parse failures -/

/-- Characters emitted by `str(n)` for a natural number: decimal digits
only, with the advertised value. -/
theorem natDigitsRev_spec (fuel : Nat) :
    ∀ n, n < fuel →
      natDigitsRev fuel n ≠ [] ∧
      (∀ c ∈ natDigitsRev fuel n, isPyDigit c = true ∧ c ≠ '_' ∧
        isPyWS c = false ∧ c ≠ '-' ∧ c ≠ '+') ∧
      digitsVal (natDigitsRev fuel n).reverse = n := by
  induction fuel with
  | zero => intro n h; omega
  | succ f ih =>
      intro n hn
      by_cases h10 : n < 10
      · refine ⟨by simp [natDigitsRev, h10], ?_, ?_⟩
        · intro c hc
          simp only [natDigitsRev, h10, if_true, List.mem_singleton] at hc
          subst hc
          interval_cases n <;> exact ⟨by decide, by decide, by decide, by decide, by decide⟩
        · simp only [natDigitsRev, h10, if_true, List.reverse_singleton]
          interval_cases n <;> decide
      · have hdiv : n / 10 < n := Nat.div_lt_self (by omega) (by omega)
        have hrec := ih (n / 10) (by omega)
        have h9 : n % 10 < 10 := Nat.mod_lt _ (by omega)
        have hchar : ∀ k, k < 10 → isPyDigit (Char.ofNat (48 + k)) = true ∧
            Char.ofNat (48 + k) ≠ '_' ∧ isPyWS (Char.ofNat (48 + k)) = false ∧
            Char.ofNat (48 + k) ≠ '-' ∧ Char.ofNat (48 + k) ≠ '+' := by
          intro k hk
          interval_cases k <;> exact ⟨by decide, by decide, by decide, by decide, by decide⟩
        have htn : ∀ k, k < 10 → (Char.ofNat (48 + k)).toNat = 48 + k := by
          intro k hk
          interval_cases k <;> decide
        refine ⟨by simp [natDigitsRev, h10], ?_, ?_⟩
        · intro c hc
          simp only [natDigitsRev, h10, if_false, List.mem_cons, Bool.false_eq_true] at hc
          rcases hc with hc | hc
          · subst hc; exact hchar _ h9
          · exact hrec.2.1 c hc
        · simp only [natDigitsRev, h10, if_false, List.reverse_cons, Bool.false_eq_true]
          have happ : digitsVal ((natDigitsRev f (n / 10)).reverse ++
              [Char.ofNat (48 + n % 10)]) =
              digitsVal (natDigitsRev f (n / 10)).reverse * 10 +
                ((Char.ofNat (48 + n % 10)).toNat - 48) := by
            simp [digitsVal, List.foldl_append]
          rw [happ, hrec.2.2, htn _ h9]
          omega

theorem splitChar_ne_nil (sep : Char) (l : List Char) : splitChar sep l ≠ [] := by
  cases l with
  | nil => simp [splitChar]
  | cons c t =>
      simp only [splitChar]
      rcases h : splitChar sep t with _ | ⟨g, gs⟩
      · simp
      · by_cases hc : c = sep <;> simp [hc]

theorem splitChar_cons_sep (sep : Char) (ys : List Char) :
    splitChar sep (sep :: ys) = [] :: splitChar sep ys := by
  simp only [splitChar]
  rcases h : splitChar sep ys with _ | ⟨g, gs⟩
  · exact absurd h (splitChar_ne_nil sep ys)
  · simp

theorem splitChar_cons_ne (sep c : Char) (ys : List Char) (hc : c ≠ sep) :
    ∃ g gs, splitChar sep ys = g :: gs ∧ splitChar sep (c :: ys) = (c :: g) :: gs := by
  rcases h : splitChar sep ys with _ | ⟨g, gs⟩
  · exact absurd h (splitChar_ne_nil sep ys)
  · refine ⟨g, gs, rfl, ?_⟩
    simp [splitChar, h, hc]

theorem splitChar_no_sep (sep : Char) (ys : List Char) (h : ∀ c ∈ ys, c ≠ sep) :
    splitChar sep ys = [ys] := by
  induction ys with
  | nil => rfl
  | cons c t ih =>
      obtain ⟨g, gs, hg, hcons⟩ :=
        splitChar_cons_ne sep c t (h c (List.mem_cons_self c t))
      have ht := ih (fun x hx => h x (List.mem_cons_of_mem c hx))
      rw [ht] at hg
      obtain ⟨hg1, hg2⟩ := List.cons.inj hg
      rw [hcons, ← hg1, ← hg2]

theorem splitChar_append_sep (sep : Char) (xs ys : List Char)
    (h : ∀ c ∈ xs, c ≠ sep) :
    splitChar sep (xs ++ sep :: ys) = xs :: splitChar sep ys := by
  induction xs with
  | nil => simpa using splitChar_cons_sep sep ys
  | cons c t ih =>
      have hrest := ih (fun x hx => h x (List.mem_cons_of_mem c hx))
      obtain ⟨g, gs, hg, hcons⟩ :=
        splitChar_cons_ne sep c (t ++ sep :: ys) (h c (List.mem_cons_self c t))
      rw [List.cons_append, hcons]
      rw [hrest] at hg
      obtain ⟨hg1, hg2⟩ := List.cons.inj hg
      rw [hg1, hg2]

theorem dropWhile_eq_self_of_all {p : Char → Bool} {l : List Char}
    (h : ∀ c ∈ l, p c = false) : l.dropWhile p = l := by
  cases l with
  | nil => rfl
  | cons c t => simp [List.dropWhile_cons, h c (List.mem_cons_self c t)]

theorem pyIntParse_digits (l : List Char) (hne : l ≠ [])
    (hd : ∀ c ∈ l, isPyDigit c = true ∧ isPyWS c = false ∧ c ≠ '-' ∧ c ≠ '+') :
    pyIntParse l = .ok (digitsVal l : Int) := by
  have htrim : ((l.dropWhile isPyWS).reverse.dropWhile isPyWS).reverse = l := by
    rw [dropWhile_eq_self_of_all (fun c hc => (hd c hc).2.1),
        dropWhile_eq_self_of_all (fun c hc => (hd c (List.mem_reverse.mp hc)).2.1),
        List.reverse_reverse]
  match hl : l, hne with
  | c :: rest, _ =>
      have hc := hd c (List.mem_cons_self c rest)
      have hall : (c :: rest).all isPyDigit = true :=
        List.all_eq_true.mpr (fun x hx => (hd x hx).1)
      simp only [pyIntParse]
      rw [show ((((c :: rest).dropWhile isPyWS).reverse.dropWhile isPyWS).reverse =
            c :: rest) from htrim]
      simp [hc.2.2.1, hc.2.2.2, hall]

/-- Round-trip: parsing the key built by `create_sequence_key(n)`
recovers `n`. -/
theorem parseSeqIndex_create (n : Nat) :
    parseSeqIndex (create_sequence_key (n : Int)) = .ok (n : Int) := by
  have hspec := natDigitsRev_spec (n + 1) n (by omega)
  have hdata : (create_sequence_key (n : Int)).data =
      "sequence".data ++ '_' :: (natDigitsRev (n + 1) n).reverse := by
    have h1 : create_sequence_key (n : Int) = "sequence_" ++ pyNatStr n := by
      simp [create_sequence_key, pyIntStr, show ¬((n : Int) < 0) from by omega]
    rw [h1, String.data_append]
    rfl
  have hdigs : ∀ c ∈ (natDigitsRev (n + 1) n).reverse,
      isPyDigit c = true ∧ isPyWS c = false ∧ c ≠ '-' ∧ c ≠ '+' := by
    intro c hc
    have := hspec.2.1 c (List.mem_reverse.mp hc)
    exact ⟨this.1, this.2.2.1, this.2.2.2.1, this.2.2.2.2⟩
  have hne : (natDigitsRev (n + 1) n).reverse ≠ [] := by
    intro h
    exact hspec.1 (by simpa using congrArg List.reverse h)
  simp only [parseSeqIndex, hdata]
  rw [splitChar_append_sep _ _ _ (by intro c hc; revert c; decide),
      splitChar_no_sep _ _ (fun c hc => (hspec.2.1 c (List.mem_reverse.mp hc)).2.1)]
  show pyIntParse ((natDigitsRev (n + 1) n).reverse) = Except.ok (n : Int)
  rw [pyIntParse_digits _ hne hdigs, hspec.2.2]

/-- **C8** (amended).  The key-to-integer parsing inside
`extract_timeseries_documents` recovers `n` from every key produced by
`create_sequence_key(n)`; on keys that do not match the
`sequence_<non-negative integer>` pattern it does not reliably raise one
format error: it raises `IndexError` when the key has no underscore,
`ValueError` when the second underscore-separated component is not an
integer literal, and it succeeds whenever that component parses as an
integer even though the key as a whole does not match (e.g. `seq_0`). -/
theorem c8_sequence_key_parsing :
    (∀ n : Nat, parseSeqIndex (create_sequence_key (n : Int)) = .ok (n : Int)) ∧
    parseSeqIndex "nounderscore" = .error .indexError ∧
    parseSeqIndex "sequence_x" = .error .valueError ∧
    (isSeqKeyFormat "seq2_7" = false ∧ parseSeqIndex "seq2_7" = .ok 7) := by
  refine ⟨parseSeqIndex_create, by rfl, by rfl, by decide, by rfl⟩

/-- Counterexample to C8 as stated: `"seq_0"` does not match the
`sequence_<non-negative integer>` pattern, yet the parsing succeeds with
`0` instead of failing with a format error. -/
theorem c8_counterexample :
    isSeqKeyFormat "seq_0" = false ∧ parseSeqIndex "seq_0" = .ok 0 := by
  exact ⟨by decide, by rfl⟩

/-! ## Claim C7: validation of key formats -/

theorem validate_fst_iff (d : ZathrasDocument) :
    d.validate.1 = true ↔ d.validate.2 = [] := by
  simp [ZathrasDocument.validate]

theorem validate_runs_truthy_of_mem (d : ZathrasDocument) (kv : String × Run)
    (hkv : kv ∈ (d.results.runs.getD [])) : runsTruthy d.results.runs = true := by
  rcases h : d.results.runs with _ | l
  · rw [h] at hkv; simp at hkv
  · rcases l with _ | ⟨q, rest⟩
    · rw [h] at hkv; simp at hkv
    · simp [runsTruthy]

theorem ts_truthy_of_mem (r : Run) (ts : String × TimeSeriesPoint)
    (hts : ts ∈ (r.timeseries.getD [])) : tsTruthy r.timeseries = true := by
  rcases h : r.timeseries with _ | l
  · rw [h] at hts; simp at hts
  · rcases l with _ | ⟨q, rest⟩
    · rw [h] at hts; simp at hts
    · simp [tsTruthy]

theorem validate_mem_docid (d : ZathrasDocument)
    (h : pyStrTruthy d.metadata.document_id = false) :
    "metadata.document_id is required" ∈ d.validate.2 := by
  simp only [ZathrasDocument.validate, h]
  split <;> simp

theorem validate_mem_testname (d : ZathrasDocument)
    (h : pyStrTruthy d.test.name = false) :
    "test.name is required" ∈ d.validate.2 := by
  simp only [ZathrasDocument.validate, h]
  split <;> simp

theorem validate_mem_status (d : ZathrasDocument)
    (h : pyStrTruthy d.results.status = false) :
    "results.status is required" ∈ d.validate.2 := by
  simp only [ZathrasDocument.validate, h]
  split <;> simp

theorem validate_mem_run_key (d : ZathrasDocument) (kv : String × Run)
    (hkv : kv ∈ (d.results.runs.getD [])) (hbad : pyStartsWith kv.1 "run_" = false) :
    ("Invalid run key: " ++ kv.1 ++ ". Must start with \x27run_\x27") ∈ d.validate.2 := by
  have hr := validate_runs_truthy_of_mem d kv hkv
  simp only [ZathrasDocument.validate, hr, if_true, List.mem_append]
  right
  refine List.mem_flatMap.mpr ⟨kv, hkv, ?_⟩
  simp [hbad]

theorem validate_mem_seq_key (d : ZathrasDocument) (kv : String × Run)
    (hkv : kv ∈ (d.results.runs.getD [])) (ts : String × TimeSeriesPoint)
    (hts : ts ∈ (kv.2.timeseries.getD []))
    (hbad : pyStartsWith ts.1 "sequence_" = false) :
    ("Invalid sequence key in " ++ kv.1 ++ ".timeseries: " ++ ts.1 ++
      ". Must start with \x27sequence_\x27") ∈ d.validate.2 := by
  have hr := validate_runs_truthy_of_mem d kv hkv
  have ht := ts_truthy_of_mem kv.2 ts hts
  simp only [ZathrasDocument.validate, hr, if_true, List.mem_append]
  right
  refine List.mem_flatMap.mpr ⟨kv, hkv, ?_⟩
  rw [List.mem_append]
  right
  rw [ht]
  simp only [if_true]
  refine List.mem_flatMap.mpr ⟨ts, hts, ?_⟩
  simp [hbad]

/-- **C7** (amended).  `validate` never raises (it is a total function
returning the accumulated error list): `is_valid` is true exactly when
the error list is empty, which happens exactly when the required fields
are non-empty and every run key starts with `"run_"` and every sequence
key starts with `"sequence_"` — a prefix check only, not the full
`run_<non-negative integer>` pattern of the claim; and each offending
key contributes its own error message to the list. -/
theorem c7_validate_key_checks (d : ZathrasDocument) :
    (d.validate.1 = true ↔ d.validate.2 = []) ∧
    (d.validate.1 = true ↔
      (pyStrTruthy d.metadata.document_id = true ∧
       pyStrTruthy d.test.name = true ∧
       pyStrTruthy d.results.status = true ∧
       (∀ kv ∈ (d.results.runs.getD []),
         pyStartsWith kv.1 "run_" = true ∧
         ∀ ts ∈ (kv.2.timeseries.getD []), pyStartsWith ts.1 "sequence_" = true))) ∧
    (∀ kv ∈ (d.results.runs.getD []), pyStartsWith kv.1 "run_" = false →
      ("Invalid run key: " ++ kv.1 ++ ". Must start with \x27run_\x27") ∈ d.validate.2) ∧
    (∀ kv ∈ (d.results.runs.getD []), ∀ ts ∈ (kv.2.timeseries.getD []),
      pyStartsWith ts.1 "sequence_" = false →
      ("Invalid sequence key in " ++ kv.1 ++ ".timeseries: " ++ ts.1 ++
        ". Must start with \x27sequence_\x27") ∈ d.validate.2) := by
  refine ⟨validate_fst_iff d, ?_, validate_mem_run_key d, validate_mem_seq_key d⟩
  constructor
  · intro hvalid
    have hnil : d.validate.2 = [] := (validate_fst_iff d).mp hvalid
    refine ⟨?_, ?_, ?_, ?_⟩
    · by_contra hno
      rw [Bool.not_eq_true] at hno
      have := validate_mem_docid d hno
      rw [hnil] at this
      simp at this
    · by_contra hno
      rw [Bool.not_eq_true] at hno
      have := validate_mem_testname d hno
      rw [hnil] at this
      simp at this
    · by_contra hno
      rw [Bool.not_eq_true] at hno
      have := validate_mem_status d hno
      rw [hnil] at this
      simp at this
    · intro kv hkv
      constructor
      · by_contra hno
        rw [Bool.not_eq_true] at hno
        have := validate_mem_run_key d kv hkv hno
        rw [hnil] at this
        simp at this
      · intro ts hts
        by_contra hno
        rw [Bool.not_eq_true] at hno
        have := validate_mem_seq_key d kv hkv ts hts hno
        rw [hnil] at this
        simp at this
  · rintro ⟨h1, h2, h3, h4⟩
    rw [validate_fst_iff]
    by_cases hr : runsTruthy d.results.runs
    · simp only [ZathrasDocument.validate, hr, if_true, List.append_eq_nil,
        List.flatMap_eq_nil_iff]
      refine ⟨⟨⟨by simp [h1], by simp [h2]⟩, by simp [h3]⟩, ?_⟩
      intro kv hkv
      refine ⟨by simp [(h4 kv hkv).1], ?_⟩
      by_cases ht : tsTruthy kv.2.timeseries
      · simp only [ht, if_true, List.flatMap_eq_nil_iff]
        intro ts hts
        simp [(h4 kv hkv).2 ts hts]
      · simp [ht]
    · simp only [ZathrasDocument.validate, hr, if_false, Bool.false_eq_true]
      simp [h1, h2, h3]

def c7CexRun : Run := { run_number := 1, status := "PASS" }

def c7CexDoc : ZathrasDocument :=
  { metadata := { document_id := "x", processing_timestamp := "T" }
    test := c1TestInfo
    system_under_test := {}
    test_configuration := {}
    results := { status := "PASS", runs := some [("run_x", c7CexRun)] } }

/-- Counterexample to C7 as stated: the run key `"run_x"` does not match
`run_<non-negative integer>`, yet `validate` reports the document valid
with no errors — the code checks only the `"run_"` prefix. -/
theorem c7_counterexample :
    isRunKeyFormat "run_x" = false ∧ c7CexDoc.validate = (true, []) := by
  exact ⟨by decide, by rfl⟩

def c7WitnessRun : Run :=
  { run_number := 1, status := "PASS",
    timeseries := some [("seq_0", { timestamp := "T0" })] }

def c7WitnessDoc : ZathrasDocument :=
  { metadata := { document_id := "x", processing_timestamp := "T" }
    test := c1TestInfo
    system_under_test := {}
    test_configuration := {}
    results := { status := "PASS",
                 runs := some [("1", c7WitnessRun)] } }

/-- Witness for C7 (amended): a document with run key `"1"` and sequence
key `"seq_0"` is invalid, and both corresponding messages are in the
error list. -/
theorem c7_validate_key_checks_witness :
    c7WitnessDoc.validate.1 = false ∧
    ("Invalid run key: 1. Must start with \x27run_\x27") ∈ c7WitnessDoc.validate.2 ∧
    ("Invalid sequence key in 1.timeseries: seq_0. Must start with \x27sequence_\x27")
      ∈ c7WitnessDoc.validate.2 := by
  have h := c7_validate_key_checks c7WitnessDoc
  refine ⟨?_, ?_, ?_⟩
  · by_contra hvalid
    simp only [Bool.not_eq_false] at hvalid
    have := (h.2.1.mp hvalid).2.2.2 ("1", c7WitnessRun) (List.mem_cons_self _ _)
    exact absurd this.1 (by decide)
  · exact h.2.2.1 ("1", c7WitnessRun) (List.mem_cons_self _ _) (by decide)
  · exact h.2.2.2 ("1", c7WitnessRun) (List.mem_cons_self _ _)
      ("seq_0", { timestamp := "T0" }) (List.mem_cons_self _ _) (by decide)

/-! ## Claim C4: duplicate-aware export of timeseries -/

/-- **C4**.  In the per-document export step, the timeseries exporter is
invoked iff the summary store's `create_document` reported `"created"`
and the document has at least one timeseries point; on `"duplicate"` the
timeseries export is skipped, the point count is added to the skipped
counter (a no-op when it is zero) and the indexed counter is untouched. -/
theorem c4_duplicate_skips_timeseries (d : ZathrasDocument)
    (resp : Except String (List (String × PyVal))) (tsSuccessful : Nat)
    (stats : ExportStats) :
    ((exportDocStep d resp tsSuccessful stats).2.1 = true ↔
      (createDocumentResult resp = .ok "created" ∧ 0 < tsPointCount d)) ∧
    (createDocumentResult resp = .ok "duplicate" →
      (exportDocStep d resp tsSuccessful stats).2.1 = false ∧
      (exportDocStep d resp tsSuccessful stats).1.timeseries_skipped =
        stats.timeseries_skipped + tsPointCount d ∧
      (exportDocStep d resp tsSuccessful stats).1.timeseries_indexed =
        stats.timeseries_indexed) := by
  constructor
  · rcases hres : createDocumentResult resp with e | op
    · simp [exportDocStep, hres]
    · by_cases hop : op = "created"
      · subst hop
        by_cases hc : 0 < tsPointCount d
        · simp [exportDocStep, hres, hc]
        · simp [exportDocStep, hres, hc, Nat.not_lt.mp]
      · have hdup : (op = "duplicate") ∨ ¬(op = "duplicate") := em _
        rcases hdup with hdup | hdup <;>
          by_cases hc : 0 < tsPointCount d <;>
            simp [exportDocStep, hres, hop, hdup, hc]
  · intro hres
    have hnc : ¬("duplicate" = "created") := by decide
    by_cases hc : 0 < tsPointCount d
    · simp [exportDocStep, hres, hnc, hc]
    · have hz : tsPointCount d = 0 := Nat.eq_zero_of_not_pos hc
      simp [exportDocStep, hres, hnc, hc, hz]

def c4Doc : ZathrasDocument :=
  { metadata := { document_id := "x", processing_timestamp := "T" }
    test := c1TestInfo
    system_under_test := {}
    test_configuration := {}
    results := { status := "PASS", runs := some [("run_1", c1Run1)] } }

/-- Witness for C4 at a concrete document: a 409 conflict response maps
to `"duplicate"`, the timeseries exporter is not invoked, the one point
is counted as skipped and nothing is indexed. -/
theorem c4_duplicate_skips_timeseries_witness :
    createDocumentResult (.error "409 version_conflict_engine_exception") =
      .ok "duplicate" ∧
    (exportDocStep c4Doc (.error "409 version_conflict_engine_exception") 5
        {}).2.1 = false ∧
    (exportDocStep c4Doc (.error "409 version_conflict_engine_exception") 5
        {}).1.timeseries_skipped = 0 + 1 ∧
    (exportDocStep c4Doc (.error "409 version_conflict_engine_exception") 5
        {}).1.timeseries_indexed = 0 := by
  have h := (c4_duplicate_skips_timeseries c4Doc
    (.error "409 version_conflict_engine_exception") 5 {}).2 (by rfl)
  exact ⟨by rfl, h.1, h.2.1, h.2.2⟩

/-! ## Claim C9: hashing does not change the document -/

/-- `calculate_content_hash` with the receiver threaded explicitly: the
method only reads `self` (through `to_dict_summary_only`, which builds
fresh dicts) and mutates its deep copy, so the returned document state is
the input. -/
def calculate_content_hash_st (d : ZathrasDocument)
    (exclude_processing_timestamp : Bool) : String × ZathrasDocument :=
  let doc_dict := d.to_dict_summary_only
  let doc_dict :=
    if exclude_processing_timestamp && dictContains doc_dict "metadata" then
      mapValAt doc_dict "metadata" popHashExcluded
    else doc_dict
  (sha256hex (strBytes (String.mk (pyDumpsSorted (.pdict doc_dict)))), d)

/-- **C9**.  Calling `calculate_content_hash` leaves every field of the
document unchanged — the pops are performed on the deep copy of the
summary dict — and the value returned by the threaded version is the
content hash itself. -/
theorem c9_hash_leaves_document_unchanged (d : ZathrasDocument) (ex : Bool) :
    (calculate_content_hash_st d ex).2.metadata = d.metadata ∧
    (calculate_content_hash_st d ex).2.test = d.test ∧
    (calculate_content_hash_st d ex).2.system_under_test = d.system_under_test ∧
    (calculate_content_hash_st d ex).2.test_configuration = d.test_configuration ∧
    (calculate_content_hash_st d ex).2.results = d.results ∧
    (calculate_content_hash_st d ex).2.runtime_info = d.runtime_info ∧
    (calculate_content_hash_st d ex).2.results.runs = d.results.runs ∧
    (calculate_content_hash_st d ex).1 = calculate_content_hash d ex :=
  ⟨rfl, rfl, rfl, rfl, rfl, rfl, rfl, rfl⟩

/-! ## Claim C10: extraction is partial in `results.runs` -/

/-- **C10**.  `extract_timeseries_documents` iterates
`self.results.runs.items()` unconditionally: when `runs` is `None` (its
default) the call raises `AttributeError` instead of returning an empty
list, and a normal return implies `runs` was an actual mapping. -/
theorem c10_extract_requires_runs :
    (∀ d : ZathrasDocument, d.results.runs = none →
      d.extract_timeseries_documents = .error .attributeError) ∧
    (∀ (d : ZathrasDocument) (l : List TimeSeriesDocument),
      d.extract_timeseries_documents = .ok l → ∃ m, d.results.runs = some m) := by
  constructor
  · intro d h
    simp [ZathrasDocument.extract_timeseries_documents, h]
  · intro d l h
    rcases hr : d.results.runs with _ | m
    · rw [ZathrasDocument.extract_timeseries_documents, hr] at h
      exact absurd h (by simp)
    · exact ⟨m, rfl⟩

def c10Doc : ZathrasDocument :=
  { metadata := { document_id := "x", processing_timestamp := "T" }
    test := c1TestInfo
    system_under_test := {}
    test_configuration := {}
    results := { status := "PASS" } }

/-- Witness for C10: the default document (runs absent) makes extraction
raise, and a document with an empty runs mapping returns normally. -/
theorem c10_extract_requires_runs_witness :
    c10Doc.extract_timeseries_documents = .error .attributeError ∧
    (∃ m, c4Doc.results.runs = some m) := by
  refine ⟨c10_extract_requires_runs.1 c10Doc rfl, ?_⟩
  exact c10_extract_requires_runs.2 c4Doc
    ((extractRuns c4Doc [("run_1", c1Run1)]).toOption.getD []) (by rfl)

/-! ## Claims C5 and C6: timeseries extraction -/

@[simp] theorem exceptBind_ok {ε α β : Type} (a : α) (f : α → Except ε β) :
    ((Except.ok a : Except ε α) >>= f) = f a := rfl

/-- Bridge between the code's value selection and the spec's notion of a
resolvable point: assuming no metric value is Python `None` (they are
`float`s by the dataclass annotation), the selection comes up empty
exactly when the point is not resolvable. -/
theorem resolveValue_isNone (m : List (String × PyVal))
    (hnone : ∀ kv ∈ m, kv.2 ≠ PyVal.pnone) :
    (resolveValue m).1.isNone = !resolvableMetrics m := by
  have hnamed : ∀ k : String, dictContains m k = true →
      (dictGetD m k .pnone).isNone = false := by
    intro k hk
    have hsome : (List.find? (fun kv => kv.1 == k) m).isSome := by
      rw [List.find?_isSome]
      simpa [dictContains, List.any_eq_true] using hk
    obtain ⟨y, hy⟩ := Option.isSome_iff_exists.mp hsome
    have hymem := List.mem_of_find?_eq_some hy
    have hyne := hnone y hymem
    simp only [dictGetD, dictGet, hy, Option.map_some', Option.getD_some]
    cases hv : y.2 <;> simp [PyVal.isNone] at hyne ⊢
    exact hyne hv
  match m, hnone with
  | [], _ => rfl
  | kv0 :: rest, _ =>
      by_cases h1 : dictContains (kv0 :: rest) "value_seconds"
      · simp only [resolveValue, h1, if_true, resolvableMetrics, Bool.true_or,
          Bool.not_true]
        exact hnamed _ h1
      · by_cases h2 : dictContains (kv0 :: rest) "throughput_bops"
        · simp only [resolveValue, h1, h2, if_true, if_false, resolvableMetrics,
            Bool.true_or, Bool.or_true, Bool.not_true, Bool.false_eq_true]
          exact hnamed _ h2
        · by_cases h3 : dictContains (kv0 :: rest) "value"
          · simp only [resolveValue, h1, h2, h3, if_true, if_false, resolvableMetrics,
              Bool.true_or, Bool.or_true, Bool.not_true, Bool.false_eq_true]
            exact hnamed _ h3
          · rcases hf : List.find? (fun kv => kv.2.isNumericPy) (kv0 :: rest) with _ | z
            · have hanyf : (kv0 :: rest).any (fun kv => kv.2.isNumericPy) = false := by
                rw [List.any_eq_false]
                intro x hx
                simpa using List.find?_eq_none.mp hf x hx
              simp only [resolveValue, h1, h2, h3, if_false, hf, resolvableMetrics,
                Bool.false_eq_true]
              simp [hanyf, PyVal.isNone, h1, h2, h3]
            · have hz : z.2.isNumericPy = true := by simpa using List.find?_some hf
              have hzmem := List.mem_of_find?_eq_some hf
              have hzn : z.2.isNone = false := by
                cases hv : z.2 <;> simp [PyVal.isNone] <;> rw [hv] at hz <;>
                  simp [PyVal.isNumericPy] at hz
              simp only [resolveValue, h1, h2, h3, if_false, hf, resolvableMetrics,
                Bool.false_eq_true, Bool.false_or]
              have hany : (kv0 :: rest).any (fun kv => kv.2.isNumericPy) = true :=
                List.any_eq_true.mpr ⟨z, hzmem, hz⟩
              simp [hany, hzn]

theorem length_filter_add_length_filter_not {α : Type} (p : α → Bool) (l : List α) :
    (l.filter p).length + (l.filter (fun a => !p a)).length = l.length := by
  induction l with
  | nil => rfl
  | cons a t ih =>
      by_cases h : p a <;> simp [List.filter_cons, h] <;> omega

theorem sum_map_add {α : Type} (f g : α → Nat) (l : List α) :
    (l.map (fun a => f a + g a)).sum = (l.map f).sum + (l.map g).sum := by
  induction l with
  | nil => rfl
  | cons a t ih => simp [ih]; omega

/-- Per-point behaviour of the inner extraction loop. -/
theorem extractPoints_spec (d : ZathrasDocument) (runKey : String) (r : Run)
    (unit : String) (pts : List (String × TimeSeriesPoint))
    (hkeys : ∀ q ∈ pts, ∃ n : Int, parseSeqIndex q.1 = .ok n)
    (hnone : ∀ q ∈ pts, ∀ kv ∈ q.2.metrics, kv.2 ≠ PyVal.pnone) :
    ∃ l, extractPoints d runKey r unit pts = .ok l ∧
      l.map (fun td => (td.results.value, td.results.point_metrics)) =
        (pts.filter (fun q => resolvableMetrics q.2.metrics)).map
          (fun q => ((resolveValue q.2.metrics).1,
            if (resolveValue q.2.metrics).2.isEmpty then none
            else some (resolveValue q.2.metrics).2)) ∧
      l.length = (pts.filter (fun q => resolvableMetrics q.2.metrics)).length := by
  induction pts with
  | nil => exact ⟨[], rfl, rfl, rfl⟩
  | cons q rest ih =>
      obtain ⟨seqKey, pt⟩ := q
      obtain ⟨n, hn⟩ := hkeys _ (List.mem_cons_self _ _)
      obtain ⟨tail, htail, hmap, hlen⟩ :=
        ih (fun x hx => hkeys x (List.mem_cons_of_mem _ hx))
           (fun x hx => hnone x (List.mem_cons_of_mem _ hx))
      have hres := resolveValue_isNone pt.metrics
        (hnone _ (List.mem_cons_self _ _))
      by_cases hr : resolvableMetrics pt.metrics
      · have hnn : (resolveValue pt.metrics).1.isNone = false := by
          rw [hres, hr]; rfl
        refine ⟨mkTsDoc d runKey r unit seqKey n pt (resolveValue pt.metrics).1
          (resolveValue pt.metrics).2 :: tail, ?_, ?_, ?_⟩
        · simp [extractPoints, hn, htail, hnn]
        · simp only [List.map_cons, List.filter_cons, hr, if_true, hmap, mkTsDoc]
        · simp [List.filter_cons, hr, hlen]
      · have hnn : (resolveValue pt.metrics).1.isNone = true := by
          rw [hres]; simp [hr]
        refine ⟨tail, ?_, ?_, ?_⟩
        · simp [extractPoints, hn, htail, hnn]
        · simp only [List.filter_cons, hr, if_false, hmap, Bool.false_eq_true]
        · simp [List.filter_cons, hr, hlen]

/-- Per-run behaviour of the outer extraction loop. -/
theorem extractRuns_spec (d : ZathrasDocument) (rs : List (String × Run))
    (hkeys : ∀ p ∈ rs, ∀ q ∈ (p.2.timeseries.getD []), ∃ n : Int, parseSeqIndex q.1 = .ok n)
    (hnone : ∀ p ∈ rs, ∀ q ∈ (p.2.timeseries.getD []), ∀ kv ∈ q.2.metrics,
      kv.2 ≠ PyVal.pnone) :
    ∃ l, extractRuns d rs = .ok l ∧
      l.map (fun td => (td.results.value, td.results.point_metrics)) =
        rs.flatMap (fun p => (((p.2.timeseries.getD []).filter
          (fun q => resolvableMetrics q.2.metrics)).map
          (fun q => ((resolveValue q.2.metrics).1,
            if (resolveValue q.2.metrics).2.isEmpty then none
            else some (resolveValue q.2.metrics).2)))) ∧
      l.length = (rs.map (fun p => ((p.2.timeseries.getD []).filter
        (fun q => resolvableMetrics q.2.metrics)).length)).sum := by
  induction rs with
  | nil => exact ⟨[], rfl, rfl, rfl⟩
  | cons p rest ih =>
      obtain ⟨runKey, r⟩ := p
      obtain ⟨there, hthere, hmap2, hlen2⟩ :=
        ih (fun x hx => hkeys x (List.mem_cons_of_mem _ hx))
           (fun x hx => hnone x (List.mem_cons_of_mem _ hx))
      by_cases hts : tsTruthy r.timeseries
      · obtain ⟨here, hhere, hmap1, hlen1⟩ :=
          extractPoints_spec d runKey r (runUnit r) (r.timeseries.getD [])
            (hkeys _ (List.mem_cons_self _ _)) (hnone _ (List.mem_cons_self _ _))
        refine ⟨here ++ there, ?_, ?_, ?_⟩
        · simp [extractRuns, hts, hhere, hthere]
        · simp [List.flatMap_cons, hmap1, hmap2]
        · simp [hlen1, hlen2]
      · have hempty : (r.timeseries.getD []) = [] := by
          rcases h : r.timeseries with _ | l
          · rfl
          · rcases l with _ | ⟨x, xs⟩
            · rfl
            · rw [h] at hts; simp [tsTruthy] at hts
        refine ⟨there, ?_, ?_, ?_⟩
        · simp [extractRuns, hts, hthere]
        · simp [List.flatMap_cons, hempty, hmap2]
        · simp [hempty, hlen2]

/-- **C5**.  Under the dataclass contract that sequence keys parse and
metric values are not `None`, extraction returns one `TimeSeriesDocument`
per point exactly for the points whose metrics resolve to a scalar by
the priority order (`value_seconds`, `throughput_bops`, `value`, first
numeric entry); the chosen entry is `results.value` and the remaining
entries are `point_metrics` (absent when empty); the list's length is
the total point count minus the skipped points. -/
theorem c5_extraction_completeness (d : ZathrasDocument) (rs : List (String × Run))
    (hrs : d.results.runs = some rs)
    (hkeys : ∀ p ∈ rs, ∀ q ∈ (p.2.timeseries.getD []), ∃ n : Int, parseSeqIndex q.1 = .ok n)
    (hnone : ∀ p ∈ rs, ∀ q ∈ (p.2.timeseries.getD []), ∀ kv ∈ q.2.metrics,
      kv.2 ≠ PyVal.pnone) :
    ∃ l, d.extract_timeseries_documents = .ok l ∧
      l.map (fun td => (td.results.value, td.results.point_metrics)) =
        rs.flatMap (fun p => (((p.2.timeseries.getD []).filter
          (fun q => resolvableMetrics q.2.metrics)).map
          (fun q => ((resolveValue q.2.metrics).1,
            if (resolveValue q.2.metrics).2.isEmpty then none
            else some (resolveValue q.2.metrics).2)))) ∧
      l.length = (rs.map (fun p => (p.2.timeseries.getD []).length)).sum -
        (rs.map (fun p => ((p.2.timeseries.getD []).filter
          (fun q => !resolvableMetrics q.2.metrics)).length)).sum := by
  obtain ⟨l, hok, hmap, hlen⟩ := extractRuns_spec d rs hkeys hnone
  refine ⟨l, ?_, hmap, ?_⟩
  · simp [ZathrasDocument.extract_timeseries_documents, hrs, hok]
  · have htot : (rs.map (fun p => (p.2.timeseries.getD []).length)).sum =
        (rs.map (fun p => ((p.2.timeseries.getD []).filter
          (fun q => resolvableMetrics q.2.metrics)).length)).sum +
        (rs.map (fun p => ((p.2.timeseries.getD []).filter
          (fun q => !resolvableMetrics q.2.metrics)).length)).sum := by
      rw [← sum_map_add]
      congr 1
      apply List.map_congr_left
      intro p _
      rw [length_filter_add_length_filter_not]
    omega

@[simp] theorem exceptBind_err {ε α β : Type} (e : ε) (f : α → Except ε β) :
    ((Except.error e : Except ε α) >>= f) = .error e := rfl

def c5Point0 : TimeSeriesPoint :=
  { timestamp := "T0",
    metrics := [("value_seconds", .pfloat "0.25"), ("cpu", .pfloat "98.5")] }

def c5Point1 : TimeSeriesPoint :=
  { timestamp := "T1", metrics := [("note", .pstr "warmup")] }

def c5Run : Run :=
  { run_number := 1, status := "PASS",
    metrics := some [("elapsed_seconds", .pfloat "1.5")],
    timeseries := some [("sequence_0", c5Point0), ("sequence_1", c5Point1)] }

def c5Doc : ZathrasDocument :=
  { metadata := { document_id := "x", processing_timestamp := "T" }
    test := c1TestInfo
    system_under_test := {}
    test_configuration := {}
    results := { status := "PASS", runs := some [("run_1", c5Run)] } }

/-- Witness for C5: one resolvable point (named `value_seconds` entry,
the `cpu` entry landing in `point_metrics`) and one unresolvable point
(only a string metric) give a one-element result, total minus skipped. -/
theorem c5_extraction_completeness_witness :
    ∃ l, c5Doc.extract_timeseries_documents = .ok l ∧
      l.map (fun td => (td.results.value, td.results.point_metrics)) =
        [(PyVal.pfloat "0.25", some [("cpu", PyVal.pfloat "98.5")])] ∧
      l.length = 2 - 1 := by
  have hk : ∀ p ∈ [("run_1", c5Run)], ∀ q ∈ (p.2.timeseries.getD []),
      ∃ n : Int, parseSeqIndex q.1 = .ok n := by
    intro p hp q hq
    simp only [List.mem_singleton] at hp
    subst hp
    simp only [c5Run, c5Point0, c5Point1, Option.getD_some, List.mem_cons, List.mem_singleton,
      List.not_mem_nil, or_false] at hq
    rcases hq with hq | hq <;> subst hq
    · exact ⟨0, by rfl⟩
    · exact ⟨1, by rfl⟩
  have hn : ∀ p ∈ [("run_1", c5Run)], ∀ q ∈ (p.2.timeseries.getD []),
      ∀ kv ∈ q.2.metrics, kv.2 ≠ PyVal.pnone := by
    intro p hp q hq kv hkv
    simp only [List.mem_singleton] at hp
    subst hp
    simp only [c5Run, c5Point0, c5Point1, Option.getD_some, List.mem_cons, List.mem_singleton,
      List.not_mem_nil, or_false] at hq
    rcases hq with hq | hq <;> subst hq <;>
      simp_all <;> rcases hkv with hkv | hkv <;> simp_all
  obtain ⟨l, h1, h2, h3⟩ := c5_extraction_completeness c5Doc [("run_1", c5Run)] rfl hk hn
  refine ⟨l, h1, ?_, ?_⟩
  · rw [h2]; rfl
  · rw [h3]; rfl

/-! ### C6: unit inference -/

theorem runUnit_eq_inferUnitKeys (r : Run) :
    runUnit r = inferUnitKeys ((r.metrics.getD []).map (·.1)) := by
  rcases h : r.metrics with _ | l
  · simp [runUnit, dictTruthy, h, inferUnitKeys]
  · rcases l with _ | ⟨kv, rest⟩
    · simp [runUnit, dictTruthy, h, inferUnitKeys]
    · simp [runUnit, dictTruthy, h]

theorem extractPoints_mem (d : ZathrasDocument) (rk : String) (r : Run) (u : String)
    (pts : List (String × TimeSeriesPoint)) (l : List TimeSeriesDocument)
    (h : extractPoints d rk r u pts = .ok l) :
    ∀ td ∈ l, td.results.unit = u ∧ td.results.run.run_key = rk := by
  induction pts generalizing l with
  | nil =>
      simp only [extractPoints, Except.ok.injEq] at h
      subst h
      simp
  | cons q rest ih =>
      obtain ⟨sk, pt⟩ := q
      rcases hp : parseSeqIndex sk with e | n
      · simp [extractPoints, hp] at h
      · rcases ht : extractPoints d rk r u rest with e | tail
        · simp [extractPoints, hp, ht] at h
        · simp only [extractPoints, hp, ht, exceptBind_ok] at h
          by_cases hb : (resolveValue pt.metrics).1.isNone
          · rw [if_pos hb] at h
            simp only [Except.ok.injEq] at h
            subst h
            exact ih tail ht
          · rw [if_neg hb] at h
            simp only [Except.ok.injEq] at h
            subst h
            intro td htd
            rcases List.mem_cons.mp htd with htd | htd
            · subst htd
              exact ⟨rfl, rfl⟩
            · exact ih tail ht td htd

theorem extractRuns_mem (d : ZathrasDocument) (rs : List (String × Run))
    (l : List TimeSeriesDocument) (h : extractRuns d rs = .ok l) :
    ∀ td ∈ l, ∃ p ∈ rs, td.results.run.run_key = p.1 ∧
      td.results.unit = runUnit p.2 := by
  induction rs generalizing l with
  | nil =>
      simp only [extractRuns, Except.ok.injEq] at h
      subst h
      simp
  | cons p rest ih =>
      obtain ⟨rk, r⟩ := p
      by_cases hts : tsTruthy r.timeseries
      · rcases hh : extractPoints d rk r (runUnit r) (r.timeseries.getD []) with e | here
        · simp [extractRuns, hts, hh] at h
        · rcases hr : extractRuns d rest with e | there
          · simp [extractRuns, hts, hh, hr] at h
          · simp only [extractRuns, hts, if_true, hh, hr, exceptBind_ok,
              Except.ok.injEq] at h
            subst h
            intro td htd
            rcases List.mem_append.mp htd with htd | htd
            · obtain ⟨hu, hk⟩ := extractPoints_mem d rk r (runUnit r) _ here hh td htd
              exact ⟨(rk, r), List.mem_cons_self _ _, hk, hu⟩
            · obtain ⟨p, hp, hk, hu⟩ := ih there hr td htd
              exact ⟨p, List.mem_cons_of_mem _ hp, hk, hu⟩
      · rcases hr : extractRuns d rest with e | there
        · simp [extractRuns, hts, hr] at h
        · simp only [extractRuns, hts, if_false, hr, exceptBind_ok,
            Except.ok.injEq, Bool.false_eq_true] at h
          subst h
          intro td htd
          simp only [List.nil_append] at htd
          obtain ⟨p, hp, hk, hu⟩ := ih there hr td htd
          exact ⟨p, List.mem_cons_of_mem _ hp, hk, hu⟩

/-- **C6** (amended).  Every document emitted by
`extract_timeseries_documents` carries the unit computed from its run's
metric key names by the source's first-match loop: the first key (in
insertion order) containing any cue decides the unit, checking that key
for `seconds`/`_sec`, then `bops`, then `mb_per_sec`/`bandwidth`, with
`"unknown"` when no key matches.  (The claim's global priority —
`seconds` winning whenever any key contains a seconds cue — is what the
counterexample refutes.) -/
theorem c6_unit_inference (d : ZathrasDocument) (rs : List (String × Run))
    (l : List TimeSeriesDocument) (hrs : d.results.runs = some rs)
    (hok : d.extract_timeseries_documents = .ok l) :
    ∀ td ∈ l, ∃ p ∈ rs, td.results.run.run_key = p.1 ∧
      td.results.unit = inferUnitKeys ((p.2.metrics.getD []).map (·.1)) := by
  rw [ZathrasDocument.extract_timeseries_documents, hrs] at hok
  intro td htd
  obtain ⟨p, hp, hk, hu⟩ := extractRuns_mem d rs l hok td htd
  exact ⟨p, hp, hk, hu.trans (runUnit_eq_inferUnitKeys p.2)⟩

def c6Run : Run :=
  { run_number := 1, status := "PASS",
    metrics := some [("throughput_bops", .pfloat "100.0"),
                     ("elapsed_seconds", .pfloat "2.0")],
    timeseries := some [("sequence_0",
      { timestamp := "T0", metrics := [("value", .pint 5)] })] }

def c6Doc : ZathrasDocument :=
  { metadata := { document_id := "x", processing_timestamp := "T" }
    test := c1TestInfo
    system_under_test := {}
    test_configuration := {}
    results := { status := "PASS", runs := some [("run_1", c6Run)] } }

/-- Counterexample to C6 as stated: the run has a metric key containing
the `seconds` cue, but because `throughput_bops` comes first in
insertion order the emitted document's unit is `"bops"`, not
`"seconds"`. -/
theorem c6_counterexample :
    (∃ k ∈ (c6Run.metrics.getD []).map (·.1), strIn "seconds" k = true) ∧
    ∃ l, c6Doc.extract_timeseries_documents = .ok l ∧
      l.map (fun td => td.results.unit) = ["bops"] := by
  refine ⟨⟨"elapsed_seconds", by decide, by decide⟩, ?_⟩
  exact ⟨(c6Doc.extract_timeseries_documents).toOption.getD [], by rfl, by rfl⟩

/-- Witness for C6 (amended) at a concrete document and its one emitted
timeseries document. -/
theorem c6_unit_inference_witness :
    ∃ td ∈ ((c6Doc.extract_timeseries_documents).toOption.getD []),
      ∃ p ∈ [("run_1", c6Run)], td.results.run.run_key = p.1 ∧
        td.results.unit = inferUnitKeys ((p.2.metrics.getD []).map (·.1)) := by
  refine ⟨_, List.mem_cons_self _ _, ?_⟩
  exact c6_unit_inference c6Doc [("run_1", c6Run)]
    ((c6Doc.extract_timeseries_documents).toOption.getD []) rfl (by rfl)
    _ (List.mem_cons_self _ _)

end Zathras
